import Mathlib

/-!
Verification of the hcData block-explorer core against its design
specification.  The Go source is shallowly embedded: SQL statement
constructors become Lean string functions, stateful loops become explicit
state-passing recursions over oracle functions that stand for the
database / RPC round trips, and machine integers become `Int`/`Nat`.
-/

set_option autoImplicit false
set_option maxRecDepth 40000

/-! ## Substring machinery (used to state facts about SQL statement texts) -/

/-- Whether `p` occurs at the head of `s` (character lists). -/
def startsWithChars : List Char → List Char → Bool
  | _, [] => true
  | [], _ :: _ => false
  | c :: s, p :: ps => c == p && startsWithChars s ps

/-- Whether the pattern `pat` occurs anywhere inside `s` (character lists). -/
def hasSubChars (pat : List Char) : List Char → Bool
  | [] => startsWithChars [] pat
  | c :: t => startsWithChars (c :: t) pat || hasSubChars pat t

/-- Whether the string `pat` occurs as a contiguous substring of `s`. -/
def hasSub (s pat : String) : Bool :=
  hasSubChars pat.data s.data

namespace Internal

/-!
## db/dcrpg/internal/txstmts.go

The SQL statement texts for the transactions table, transcribed from the
Go constants with whitespace normalized to single spaces (the Go raw
strings use newlines and tabs; nothing here depends on the exact
whitespace).
-/

/-- `insertTxRow`: the basis for the tx insert/upsert statements. -/
def insertTxRow : String :=
  "INSERT INTO transactions (block_hash, block_height, block_time, time, " ++
  "tx_type, version, tree, tx_hash, block_index, lock_time, expiry, size, " ++
  "spent, sent, fees, num_vin, vin_db_ids, num_vout, vout_db_ids, " ++
  "is_valid, is_mainchain) VALUES ($1, $2, $3, $4, $5, $6, $7, $8, $9, " ++
  "$10, $11, $12, $13, $14, $15, $16, $17, $18, $19, $20, $21) "

/-- `InsertTxRow`: unchecked insert, no conflict clause. -/
def InsertTxRow : String := insertTxRow ++ "RETURNING id;"

/-- `UpsertTxRow`: insert or, on conflict with the unique index on
(tx_hash, block_hash), update the mutable columns, returning the row id. -/
def UpsertTxRow : String :=
  insertTxRow ++
  "ON CONFLICT (tx_hash, block_hash) DO UPDATE SET is_valid = $20, is_mainchain = $21 RETURNING id;"

/-- `InsertTxRowOnConflictDoNothing`: insert with DO NOTHING on conflict,
its RETURNING unioned with a SELECT on the same unique key so the caller
always gets a row id. -/
def InsertTxRowOnConflictDoNothing : String :=
  "WITH ins AS (" ++ insertTxRow ++
  "ON CONFLICT (tx_hash, block_hash) DO NOTHING -- no lock on row " ++
  "RETURNING id ) SELECT id FROM ins UNION ALL " ++
  "SELECT id FROM transactions WHERE tx_hash = $8 AND block_hash = $1 " ++
  "-- only executed if no INSERT LIMIT 1;"

/-- `MakeTxInsertStatement` selects the transactions-table insert statement
from the `(checked, updateOnConflict)` pair, as in txstmts.go. -/
def MakeTxInsertStatement (checked updateOnConflict : Bool) : String :=
  if !checked then InsertTxRow
  else if updateOnConflict then UpsertTxRow
  else InsertTxRowOnConflictDoNothing

end Internal

/-- Claim C2: the row-insert statement for the transactions table chosen by
the `(checked, updateOnConflict)` pair implements the three modes: unchecked
gives an unconditional INSERT with no conflict clause (for either value of
`updateOnConflict`); `(true, false)` gives INSERT .. ON CONFLICT DO NOTHING
whose RETURNING is unioned with a SELECT on the unique key
(tx_hash, block_hash), so a row id comes back whether the row was new or
pre-existing; `(true, true)` gives an upsert updating `is_valid` and
`is_mainchain` and returning the affected row id. -/
theorem claim_C2_txInsertModes (u : Bool) :
    (Internal.MakeTxInsertStatement false u = Internal.insertTxRow ++ "RETURNING id;"
      ∧ hasSub (Internal.MakeTxInsertStatement false u) "ON CONFLICT" = false)
  ∧ (Internal.MakeTxInsertStatement true false = Internal.InsertTxRowOnConflictDoNothing
      ∧ hasSub (Internal.MakeTxInsertStatement true false)
          "ON CONFLICT (tx_hash, block_hash) DO NOTHING" = true
      ∧ hasSub (Internal.MakeTxInsertStatement true false) "RETURNING id" = true
      ∧ hasSub (Internal.MakeTxInsertStatement true false) "UNION ALL" = true
      ∧ hasSub (Internal.MakeTxInsertStatement true false)
          "SELECT id FROM transactions WHERE tx_hash = $8 AND block_hash = $1" = true)
  ∧ (Internal.MakeTxInsertStatement true true = Internal.UpsertTxRow
      ∧ hasSub (Internal.MakeTxInsertStatement true true)
          "ON CONFLICT (tx_hash, block_hash) DO UPDATE SET is_valid = $20, is_mainchain = $21" = true
      ∧ hasSub (Internal.MakeTxInsertStatement true true) "RETURNING id;" = true) := by
  cases u <;> exact ⟨⟨rfl, by decide⟩,
    ⟨rfl, by decide, by decide, by decide, by decide⟩, ⟨rfl, by decide, by decide⟩⟩

/-- Claim C2 witness: the theorem instantiated at `updateOnConflict := true`. -/
theorem claim_C2_txInsertModes_witness :
    (Internal.MakeTxInsertStatement false true = Internal.insertTxRow ++ "RETURNING id;"
      ∧ hasSub (Internal.MakeTxInsertStatement false true) "ON CONFLICT" = false)
  ∧ (Internal.MakeTxInsertStatement true false = Internal.InsertTxRowOnConflictDoNothing
      ∧ hasSub (Internal.MakeTxInsertStatement true false)
          "ON CONFLICT (tx_hash, block_hash) DO NOTHING" = true
      ∧ hasSub (Internal.MakeTxInsertStatement true false) "RETURNING id" = true
      ∧ hasSub (Internal.MakeTxInsertStatement true false) "UNION ALL" = true
      ∧ hasSub (Internal.MakeTxInsertStatement true false)
          "SELECT id FROM transactions WHERE tx_hash = $8 AND block_hash = $1" = true)
  ∧ (Internal.MakeTxInsertStatement true true = Internal.UpsertTxRow
      ∧ hasSub (Internal.MakeTxInsertStatement true true)
          "ON CONFLICT (tx_hash, block_hash) DO UPDATE SET is_valid = $20, is_mainchain = $21" = true
      ∧ hasSub (Internal.MakeTxInsertStatement true true) "RETURNING id;" = true) :=
  claim_C2_txInsertModes true

namespace Dcrsqlite

/-!
## db/dcrsqlite/sync.go

`RewindStakeDB` and the stake-DB rewind decision at the start of
`resyncDB`.  The stake database height (`db.sDB.Height()`, a uint32) is a
`Nat`; the requested height and the SQLite heights (int64, `-1` for an
empty table) are `Int`.  `DisconnectBlock` (package stakedb, not under
src/) rewinds the stake DB by one block per the spec; here it is an
oracle `discOk` for its error outcome together with the height decrement.
-/

/-- Outcome of `RewindStakeDB`: final stake DB height, error from
`DisconnectBlock` if any, and how many blocks were disconnected. -/
structure RewindOut where
  height : Nat
  err : Option Unit
  disconnects : Nat
  deriving Repr, DecidableEq

/-- The rewind loop of `RewindStakeDB`: while the stake DB height exceeds
the (already clamped) target, check the quit signal, then disconnect one
block.  `cancel h` is the ctx.Done() check at height `h`; `discOk h` is
whether `DisconnectBlock` succeeds at height `h`. -/
def rewindLoop (cancel discOk : Nat → Bool) (toH : Nat) (h : Nat) : RewindOut :=
  if hgt : toH < h then
    if cancel h then ⟨h, none, 0⟩
    else if discOk h then
      let r := rewindLoop cancel discOk toH (h - 1)
      ⟨r.height, r.err, r.disconnects + 1⟩
    else ⟨h, some (), 0⟩
  else ⟨h, none, 0⟩
termination_by h

/-- `RewindStakeDB`: clamp a negative target to 0, then run the rewind
loop from the current stake DB height `h0`. -/
def RewindStakeDB (cancel discOk : Nat → Bool) (h0 : Nat) (toHeight : Int) : RewindOut :=
  let toH : Nat := if toHeight < 0 then 0 else toHeight.toNat
  rewindLoop cancel discOk toH h0

/-- The stake-DB rewind/abort decision at the start of `resyncDB`
(sync.go lines 135-147), on the stake DB height and the lowest SQLite DB
height `dbHeight`. -/
inductive RewindDecision where
  | abort (msg : String)
  | rewindTo (h : Int)
  | noAction
  deriving Repr, DecidableEq

/-- The decision taken by `resyncDB`: rewind only when the stake DB is
ahead of the SQLite DBs and nonempty; abort when the SQLite height is
negative or less than half the stake DB height. -/
def stakeDBRewindAction (stakeDBHeight dbHeight : Int) : RewindDecision :=
  if stakeDBHeight > dbHeight ∧ stakeDBHeight > 0 then
    if dbHeight < 0 ∨ stakeDBHeight > 2 * dbHeight then
      .abort "delete stake db (ffldb_stake) and try again"
    else .rewindTo dbHeight
  else .noAction

end Dcrsqlite

/-- Claim C6 counterexample: with an empty primary store (best height -1,
as reported by DBHeights for empty SQLite tables) and a stake database at
height 0, the stake DB height exceeds twice the primary best height, yet
resyncDB neither aborts nor rewinds, contradicting the claim that it
aborts whenever stakeDBHeight > 2 * primary best. -/
theorem claim_C6_counterexample :
    Dcrsqlite.stakeDBRewindAction 0 (-1) = .noAction
      ∧ (0 : Int) > 2 * (-1) ∧ (0 : Int) > (-1) := by
  refine ⟨?_, by decide, by decide⟩
  decide

/-- Claim C6 (amended): provided the stake DB height is positive, resyncDB
rewinds the stake DB down to the primary best height whenever the stake DB
is ahead, except that it aborts with the delete-stake-db error whenever
the primary best height is negative or the stake DB height exceeds twice
the primary best height; when the stake DB height is at most the primary
best height it does nothing. -/
theorem claim_C6_stakeDBRewind (s d : Int) (hs : 0 < s) :
    (d < s →
      ((d < 0 ∨ 2 * d < s) →
        Dcrsqlite.stakeDBRewindAction s d =
          .abort "delete stake db (ffldb_stake) and try again")
      ∧ (0 ≤ d → s ≤ 2 * d → Dcrsqlite.stakeDBRewindAction s d = .rewindTo d))
  ∧ (s ≤ d → Dcrsqlite.stakeDBRewindAction s d = .noAction) := by
  unfold Dcrsqlite.stakeDBRewindAction
  refine ⟨fun hds => ⟨fun habort => ?_, fun hd0 hhalf => ?_⟩, fun hsd => ?_⟩
  · rw [if_pos ⟨hds, hs⟩, if_pos habort]
  · rw [if_pos ⟨hds, hs⟩, if_neg]
    push_neg
    exact ⟨hd0, hhalf⟩
  · rw [if_neg]
    intro h
    exact absurd hsd (not_le.mpr h.1)

/-- Claim C6 witness: the amended theorem at stake height 9, primary best 4
(abort since 9 > 8) and at stake height 7, primary best 4 (rewind to 4). -/
theorem claim_C6_stakeDBRewind_witness :
    ((0 : Int) < 9 ∧ Dcrsqlite.stakeDBRewindAction 9 4 =
        .abort "delete stake db (ffldb_stake) and try again")
  ∧ ((0 : Int) < 7 ∧ Dcrsqlite.stakeDBRewindAction 7 4 = .rewindTo 4) :=
  ⟨⟨by decide, ((claim_C6_stakeDBRewind 9 4 (by decide)).1 (by decide)).1 (by decide)⟩,
   ⟨by decide, ((claim_C6_stakeDBRewind 7 4 (by decide)).1 (by decide)).2
      (by decide) (by decide)⟩⟩

/-- Claim C9: for any target height at least the current stake DB height,
RewindStakeDB disconnects no blocks and returns the current height with no
error; and for any negative target it behaves exactly as for target 0, so
the stake DB is never rewound below height 0. -/
theorem claim_C9_rewindStakeDB (cancel discOk : Nat → Bool) (h0 : Nat) (toHeight : Int) :
    ((h0 : Int) ≤ toHeight →
      Dcrsqlite.RewindStakeDB cancel discOk h0 toHeight = ⟨h0, none, 0⟩)
  ∧ (toHeight < 0 →
      Dcrsqlite.RewindStakeDB cancel discOk h0 toHeight =
        Dcrsqlite.RewindStakeDB cancel discOk h0 0) := by
  constructor
  · intro hle
    have h0nn : (0 : Int) ≤ toHeight := le_trans (by exact_mod_cast Nat.zero_le h0) hle
    unfold Dcrsqlite.RewindStakeDB
    have hni : ¬ toHeight < 0 := not_lt.mpr h0nn
    rw [if_neg hni]
    have hto : h0 ≤ toHeight.toNat := by omega
    rw [Dcrsqlite.rewindLoop]
    rw [dif_neg (by omega)]
  · intro hneg
    unfold Dcrsqlite.RewindStakeDB
    rw [if_pos hneg, if_neg (by omega)]
    simp [Int.toNat_of_nonneg]

/-- Claim C9 witness: no-op rewind at height 3 with target 5, and the
negative-target clamp at target -2. -/
theorem claim_C9_rewindStakeDB_witness :
    (((3 : Nat) : Int) ≤ 5 ∧
      Dcrsqlite.RewindStakeDB (fun _ => false) (fun _ => true) 3 5 = ⟨3, none, 0⟩)
  ∧ ((-2 : Int) < 0 ∧
      Dcrsqlite.RewindStakeDB (fun _ => false) (fun _ => true) 3 (-2) =
        Dcrsqlite.RewindStakeDB (fun _ => false) (fun _ => true) 3 0) :=
  ⟨⟨by decide, (claim_C9_rewindStakeDB (fun _ => false) (fun _ => true) 3 5).1 (by decide)⟩,
   ⟨by decide, (claim_C9_rewindStakeDB (fun _ => false) (fun _ => true) 3 (-2)).2 (by decide)⟩⟩

namespace Dcrpg

/-!
## RetrieveAddressUTXOs (pgblockchain query functions, src/unnamed/part_001)

The rows produced by the `SelectAddressUnspentWithTxn` query are an input
list (the database is an oracle); the function maps them to API outputs.
pkScript bytes stay as byte lists (the Go hex encoding is presentation),
and the coin `Amount` float rendering of `atoms` is omitted: amounts are
kept in integer atoms as stored.
-/

/-- A row scanned from the `SelectAddressUnspentWithTxn` query. -/
structure UtxoDbRow where
  address : String
  txid : String
  atoms : Int
  blockHeight : Int
  blockTime : Int
  vout : Nat
  pkScript : List Nat
  deriving Repr, DecidableEq

/-- An entry of the `apitypes.AddressTxnOutput` result list. -/
structure AddressTxnOutput where
  address : String
  txnID : String
  satoshis : Int
  height : Int
  vout : Nat
  scriptPubKey : List Nat
  confirmations : Int
  deriving Repr, DecidableEq

/-- `RetrieveAddressUTXOs`: for each returned row build the output,
computing confirmations from the caller-supplied current block height. -/
def RetrieveAddressUTXOs (rows : List UtxoDbRow) (currentBlockHeight : Int) :
    List AddressTxnOutput :=
  rows.map fun r =>
    { address := r.address
      txnID := r.txid
      satoshis := r.atoms
      height := r.blockHeight
      vout := r.vout
      scriptPubKey := r.pkScript
      confirmations := currentBlockHeight - r.blockHeight + 1 }

end Dcrpg

/-- Claim C8: every UTXO returned by the address-UTXO query reports
confirmations equal to currentHeight - outputHeight + 1, where
outputHeight is the funding transaction's block height as stored in the
row the output was built from. -/
theorem claim_C8_utxoConfirmations (rows : List Dcrpg.UtxoDbRow) (currentHeight : Int) :
    ∀ o ∈ Dcrpg.RetrieveAddressUTXOs rows currentHeight,
      o.confirmations = currentHeight - o.height + 1
        ∧ ∃ r ∈ rows, o.height = r.blockHeight ∧ o.txnID = r.txid := by
  intro o ho
  rw [Dcrpg.RetrieveAddressUTXOs, List.mem_map] at ho
  obtain ⟨r, hr, rfl⟩ := ho
  exact ⟨rfl, r, hr, rfl, rfl⟩

/-- Claim C8 witness: a concrete two-row table at current height 10. -/
theorem claim_C8_utxoConfirmations_witness :
    (⟨"a", "t1", 5, 4, 0, 0, []⟩ : Dcrpg.UtxoDbRow) ∈
        [(⟨"a", "t1", 5, 4, 0, 0, []⟩ : Dcrpg.UtxoDbRow), ⟨"a", "t2", 7, 9, 0, 1, []⟩]
    ∧ ∀ o ∈ Dcrpg.RetrieveAddressUTXOs
        [(⟨"a", "t1", 5, 4, 0, 0, []⟩ : Dcrpg.UtxoDbRow), ⟨"a", "t2", 7, 9, 0, 1, []⟩] 10,
        o.confirmations = 10 - o.height + 1
          ∧ ∃ r ∈ [(⟨"a", "t1", 5, 4, 0, 0, []⟩ : Dcrpg.UtxoDbRow), ⟨"a", "t2", 7, 9, 0, 1, []⟩],
              o.height = r.blockHeight ∧ o.txnID = r.txid :=
  ⟨by decide, claim_C8_utxoConfirmations
    [⟨"a", "t1", 5, 4, 0, 0, []⟩, ⟨"a", "t2", 7, 9, 0, 1, []⟩] 10⟩

namespace Dcrpg

/-!
## InsertVotes (pgblockchain insert functions, src/unnamed/part_001)

The function is embedded on its error-free database execution: the
prepared-statement round trips are oracle functions.  `voteInsertId idx`
is the row id scanned from the vote insert for the `idx`-th vote, `none`
standing for `sql.ErrNoRows` (the DO NOTHING statement found a conflicting
row), on which the Go code `continue`s.  Vote-script parsing
(`txhelpers.SSGenVersion`, `SSGenVoteBlockValid`, `SSGenVoteChoices`; the
txhelpers package is not under src/) is modelled from the spec as fields
of the vote's `MsgTx`: version, vote bits, validity, agenda choices.
-/

/-- `stake.TxTypeSSGen` from dcrd: the vote transaction type. -/
def txTypeSSGen : Int := 2

/-- A transaction input: `ValueIn` and the previous outpoint hash. -/
structure TxIn where
  valueIn : Int
  prevOutHash : String
  deriving Repr, DecidableEq, Inhabited

/-- The wire transaction data used by InsertVotes. -/
structure MsgTx where
  txHash : String
  txIns : List TxIn
  voteVersion : Nat
  voteBits : Nat
  validity : Bool
  choices : List String
  deriving Repr, DecidableEq, Inhabited

/-- The dbtypes.Tx data used by InsertVotes. -/
structure DbTx where
  txID : String
  txType : Int
  blockHeight : Int
  blockHash : String
  isMainchain : Bool
  deriving Repr, DecidableEq, Inhabited

/-- A row passed to the votes-table insert statement. -/
structure VoteRow where
  blockHeight : Int
  txID : String
  blockHash : String
  candidateBlockHash : String
  voteVersion : Nat
  voteBits : Nat
  validity : Bool
  ticketHash : String
  ticketDbID : Nat
  stakeSubmissionAmount : Int
  reward : Int
  isMainchain : Bool
  deriving Repr, DecidableEq

/-- Error from the vote-collection pass. -/
inductive VoteErr where
  | txidMismatch
  deriving Repr, DecidableEq

/-- The vote-selection loop at the top of InsertVotes: keep the SSGen
transactions (paired with their wire representation), failing if a kept
pair's txid does not match its wire hash. -/
def collectVotes : List (DbTx × MsgTx) → Except VoteErr (List (DbTx × MsgTx))
  | [] => .ok []
  | (tx, mtx) :: rest =>
    if tx.txType = txTypeSSGen then
      if tx.txID ≠ mtx.txHash then .error .txidMismatch
      else
        match collectVotes rest with
        | .error e => .error e
        | .ok vs => .ok ((tx, mtx) :: vs)
    else collectVotes rest

/-- The in-place removal of a spent ticket from the misses slice: find the
first occurrence, overwrite it with the slice's last element, and truncate
the slice by one (`misses[im] = misses[len-1]; misses = misses[:len-1]`). -/
def removeMiss : List String → String → List String
  | [], _ => []
  | a :: t, h =>
    if a = h then
      match t with
      | [] => []
      | b :: bs => (b :: bs).getLast (by simp) :: (b :: bs).dropLast
    else a :: removeMiss t h

/-- The row built for a vote and handed to the votes insert statement:
the spent ticket hash and stake submission amount come from input #1, the
reward from input #0 (the stakebase). -/
def voteRowOf (fTx : String → Nat) (candidate : String) (p : DbTx × MsgTx) : VoteRow :=
  { blockHeight := p.1.blockHeight
    txID := p.1.txID
    blockHash := p.1.blockHash
    candidateBlockHash := candidate
    voteVersion := p.2.voteVersion
    voteBits := p.2.voteBits
    validity := p.2.validity
    ticketHash := (p.2.txIns.getD 1 default).prevOutHash
    ticketDbID := fTx ((p.2.txIns.getD 1 default).prevOutHash)
    stakeSubmissionAmount := (p.2.txIns.getD 1 default).valueIn
    reward := (p.2.txIns.getD 0 default).valueIn
    isMainchain := p.1.isMainchain }

/-- Accumulator of the per-vote loop of InsertVotes. -/
structure VoteLoopState where
  ids : List Nat
  spentTicketHashes : List String
  spentTicketDbIDs : List Nat
  misses : List String
  voteRows : List VoteRow
  agendaRows : List (String × String)
  deriving Repr, DecidableEq

/-- One iteration of the per-vote loop: record the spent ticket hash and
its transactions-table row id, drop the ticket from the misses list, send
the vote row; on `ErrNoRows` continue, otherwise record the returned id
and (unless `checked && !updateExistingRecords`) the agenda choice rows. -/
def processVote (fTx : String → Nat) (voteInsertId : Nat → Option Nat)
    (checked updateExistingRecords : Bool) (candidate : String)
    (idx : Nat) (st : VoteLoopState) (p : DbTx × MsgTx) : VoteLoopState :=
  let sh := (p.2.txIns.getD 1 default).prevOutHash
  let st1 : VoteLoopState :=
    { st with
      spentTicketHashes := st.spentTicketHashes ++ [sh]
      spentTicketDbIDs := st.spentTicketDbIDs ++ [fTx sh]
      misses := removeMiss st.misses sh
      voteRows := st.voteRows ++ [voteRowOf fTx candidate p] }
  match voteInsertId idx with
  | none => st1
  | some id =>
    let ag := if checked && !updateExistingRecords then []
              else p.2.choices.map fun c => (p.1.txID, c)
    { st1 with ids := st1.ids ++ [id], agendaRows := st1.agendaRows ++ ag }

/-- The per-vote loop of InsertVotes over the collected votes. -/
def voteLoop (fTx : String → Nat) (voteInsertId : Nat → Option Nat)
    (checked updateExistingRecords : Bool) (candidate : String) :
    Nat → VoteLoopState → List (DbTx × MsgTx) → VoteLoopState
  | _, st, [] => st
  | idx, st, p :: rest =>
    voteLoop fTx voteInsertId checked updateExistingRecords candidate
      (idx + 1)
      (processVote fTx voteInsertId checked updateExistingRecords candidate idx st p)
      rest

/-- The miss-storage loop: one insert per remaining miss, recording the
scanned row id; `none` is `sql.ErrNoRows`, on which the Go code continues
without a map entry. -/
def buildMissMap (missInsertId : Nat → Option Nat) : Nat → List String → List (String × Nat)
  | _, [] => []
  | i, m :: rest =>
    match missInsertId i with
    | some id => (m, id) :: buildMissMap missInsertId (i + 1) rest
    | none => buildMissMap missInsertId (i + 1) rest

/-- Everything observable about one InsertVotes run: its outputs, the rows
it sent to the votes / misses / agendas tables, and whether it began a DB
transaction, panicked, or rolled back. -/
structure InsertVotesOut where
  err : Option VoteErr
  beganTx : Bool
  voteRows : List VoteRow
  ids : List Nat
  spentTicketHashes : List String
  spentTicketDbIDs : List Nat
  misses : List String
  agendaRows : List (String × String)
  missRows : List String
  missHashMap : List (String × Nat)
  panicked : Bool
  rolledBack : Bool
  deriving Repr, DecidableEq

/-- The all-nil output of the early returns (no DB transaction begun). -/
def emptyVotesOut (e : Option VoteErr) : InsertVotesOut :=
  { err := e, beganTx := false, voteRows := [], ids := [], spentTicketHashes := []
    spentTicketDbIDs := [], misses := [], agendaRows := [], missRows := []
    missHashMap := [], panicked := false, rolledBack := false }

/-- The tail of InsertVotes after the per-vote loop: the guarded panic
(`len(msgBlock.Validators) > 0 && len(ids)+len(misses) != 5`, with a
rollback just before the panic), then the miss-storage loop and commit. -/
def finishVotes (validators : List String) (missInsertId : Nat → Option Nat)
    (st : VoteLoopState) : InsertVotesOut :=
  if !validators.isEmpty && !(st.ids.length + st.misses.length == 5) then
    { err := none, beganTx := true, voteRows := st.voteRows, ids := st.ids
      spentTicketHashes := st.spentTicketHashes, spentTicketDbIDs := st.spentTicketDbIDs
      misses := st.misses, agendaRows := st.agendaRows, missRows := []
      missHashMap := [], panicked := true, rolledBack := true }
  else
    { err := none, beganTx := true, voteRows := st.voteRows, ids := st.ids
      spentTicketHashes := st.spentTicketHashes, spentTicketDbIDs := st.spentTicketDbIDs
      misses := st.misses, agendaRows := st.agendaRows, missRows := st.misses
      missHashMap := buildMissMap missInsertId 0 st.misses, panicked := false
      rolledBack := false }

/-- `InsertVotes` on its error-free database execution.  `dbTxns` and
`msgTxs` are the block's stake transactions in matching order,
`validators` is `msgBlock.Validators`, `prevBlockHash` is the candidate
block hash (`msgBlock.Header.PrevBlock`), `fTx` is the
`TicketTxnIDGetter.TxnDbID` cache lookup. -/
def InsertVotes (dbTxns : List DbTx) (msgTxs : List MsgTx) (validators : List String)
    (fTx : String → Nat) (voteInsertId missInsertId : Nat → Option Nat)
    (checked updateExistingRecords : Bool) (prevBlockHash : String) : InsertVotesOut :=
  match collectVotes (dbTxns.zip msgTxs) with
  | .error e => emptyVotesOut (some e)
  | .ok voteTxs =>
    match voteTxs with
    | [] => emptyVotesOut none
    | v :: vs =>
      finishVotes validators missInsertId
        (voteLoop fTx voteInsertId checked updateExistingRecords prevBlockHash 0
          { ids := [], spentTicketHashes := [], spentTicketDbIDs := []
            misses := validators, voteRows := [], agendaRows := [] } (v :: vs))

/-! ### Supporting lemmas about the InsertVotes embedding -/

/-- The swap-remove loop removes one occurrence: up to order, `removeMiss`
is `List.erase`. -/
theorem removeMiss_perm (l : List String) (h : String) :
    List.Perm (removeMiss l h) (l.erase h) := by
  induction l with
  | nil => simp [removeMiss]
  | cons a t ih =>
    show (if a = h then _ else a :: removeMiss t h).Perm _
    by_cases hah : a = h
    · rw [if_pos hah]
      subst hah
      rw [List.erase_cons_head]
      cases t with
      | nil => exact List.Perm.refl _
      | cons b bs =>
        have hperm := (List.perm_append_singleton
          ((b :: bs).getLast (by simp)) ((b :: bs).dropLast)).symm
        rw [List.dropLast_append_getLast (by simp)] at hperm
        exact hperm
    · rw [if_neg hah, List.erase_cons_tail (by simp [hah])]
      exact List.Perm.cons a ih

/-- With no SSGen transaction present, the vote-collection pass returns an
empty vote list (and no error). -/
theorem collectVotes_eq_nil (l : List (DbTx × MsgTx))
    (h : ∀ p ∈ l, p.1.txType ≠ txTypeSSGen) : collectVotes l = .ok [] := by
  induction l with
  | nil => rfl
  | cons p rest ih =>
    obtain ⟨tx, mtx⟩ := p
    rw [collectVotes, if_neg (h (tx, mtx) (by simp))]
    exact ih fun q hq => h q (List.mem_cons_of_mem _ hq)

/-- The spent-ticket hashes accumulated by the vote loop: one entry per
vote, from input #1's previous outpoint. -/
theorem voteLoop_spentTicketHashes (fTx : String → Nat) (voteInsertId : Nat → Option Nat)
    (checked upd : Bool) (cand : String) :
    ∀ (l : List (DbTx × MsgTx)) (idx : Nat) (st : VoteLoopState),
      (voteLoop fTx voteInsertId checked upd cand idx st l).spentTicketHashes =
        st.spentTicketHashes ++ l.map fun p => (p.2.txIns.getD 1 default).prevOutHash := by
  intro l
  induction l with
  | nil => intro idx st; simp [voteLoop]
  | cons p rest ih =>
    intro idx st
    rw [voteLoop, ih]
    cases hv : voteInsertId idx <;> simp [processVote, hv]

/-- The vote rows accumulated by the vote loop: one `voteRowOf` row per
vote, independent of the insert-statement outcomes. -/
theorem voteLoop_voteRows (fTx : String → Nat) (voteInsertId : Nat → Option Nat)
    (checked upd : Bool) (cand : String) :
    ∀ (l : List (DbTx × MsgTx)) (idx : Nat) (st : VoteLoopState),
      (voteLoop fTx voteInsertId checked upd cand idx st l).voteRows =
        st.voteRows ++ l.map (voteRowOf fTx cand) := by
  intro l
  induction l with
  | nil => intro idx st; simp [voteLoop]
  | cons p rest ih =>
    intro idx st
    rw [voteLoop, ih]
    cases hv : voteInsertId idx <;> simp [processVote, hv]

/-- The misses list left by the vote loop: the swap-removals of each
vote's spent ticket, folded over the starting list. -/
theorem voteLoop_misses (fTx : String → Nat) (voteInsertId : Nat → Option Nat)
    (checked upd : Bool) (cand : String) :
    ∀ (l : List (DbTx × MsgTx)) (idx : Nat) (st : VoteLoopState),
      (voteLoop fTx voteInsertId checked upd cand idx st l).misses =
        l.foldl (fun m p => removeMiss m ((p.2.txIns.getD 1 default).prevOutHash)) st.misses := by
  intro l
  induction l with
  | nil => intro idx st; simp [voteLoop]
  | cons p rest ih =>
    intro idx st
    rw [voteLoop, ih]
    cases hv : voteInsertId idx <;> simp [processVote, hv]

/-- Folding swap-removals is, up to order, folding `List.erase`. -/
theorem foldl_removeMiss_perm :
    ∀ (hs : List String) (v w : List String), List.Perm v w →
      List.Perm (hs.foldl (fun m h => removeMiss m h) v)
        (hs.foldl (fun m h => m.erase h) w) := by
  intro hs
  induction hs with
  | nil => intro v w hp; simpa using hp
  | cons h rest ih =>
    intro v w hp
    simp only [List.foldl_cons]
    exact ih _ _ ((removeMiss_perm v h).trans (hp.erase h))

/-- Membership after folding `List.erase` over a duplicate-free list. -/
theorem mem_foldl_erase :
    ∀ (hs v : List String), v.Nodup → ∀ x : String,
      x ∈ hs.foldl (fun m h => m.erase h) v ↔ x ∈ v ∧ x ∉ hs := by
  intro hs
  induction hs with
  | nil => intro v _ x; simp
  | cons h rest ih =>
    intro v hv x
    simp only [List.foldl_cons]
    rw [ih _ (hv.erase h), hv.mem_erase_iff]
    simp only [List.mem_cons]
    tauto

/-- The finishing step keeps the loop's outputs, whatever the panic
check decides. -/
theorem finishVotes_fields (validators : List String) (missInsertId : Nat → Option Nat)
    (st : VoteLoopState) :
    (finishVotes validators missInsertId st).spentTicketHashes = st.spentTicketHashes
  ∧ (finishVotes validators missInsertId st).voteRows = st.voteRows
  ∧ (finishVotes validators missInsertId st).misses = st.misses
  ∧ (finishVotes validators missInsertId st).ids = st.ids
  ∧ (finishVotes validators missInsertId st).beganTx = true
  ∧ (finishVotes validators missInsertId st).panicked =
      (!validators.isEmpty && !(st.ids.length + st.misses.length == 5))
  ∧ (finishVotes validators missInsertId st).rolledBack =
      (finishVotes validators missInsertId st).panicked
  ∧ ((finishVotes validators missInsertId st).panicked = false →
      (finishVotes validators missInsertId st).missRows = st.misses) := by
  unfold finishVotes
  by_cases hp : (!validators.isEmpty && !(st.ids.length + st.misses.length == 5)) = true
  · rw [if_pos hp]
    refine ⟨rfl, rfl, rfl, rfl, rfl, hp.symm, rfl, ?_⟩
    intro hfalse
    simp at hfalse
  · rw [if_neg hp]
    exact ⟨rfl, rfl, rfl, rfl, rfl, by simpa using (Bool.not_eq_true _).mp hp, rfl,
      fun _ => rfl⟩

end Dcrpg


/-- Claim C10: when no transaction in the input slice is a vote (SSGen),
InsertVotes returns the all-nil output with a nil error and without
beginning a database transaction, so no vote, miss, or agenda row is
sent. -/
theorem claim_C10_noVotesNoDbTx (dbTxns : List Dcrpg.DbTx) (msgTxs : List Dcrpg.MsgTx)
    (validators : List String) (fTx : String → Nat)
    (voteInsertId missInsertId : Nat → Option Nat) (checked upd : Bool) (prev : String)
    (h : ∀ tx ∈ dbTxns, tx.txType ≠ Dcrpg.txTypeSSGen) :
    Dcrpg.InsertVotes dbTxns msgTxs validators fTx voteInsertId missInsertId checked upd prev =
      Dcrpg.emptyVotesOut none := by
  have hz : ∀ p ∈ dbTxns.zip msgTxs, p.1.txType ≠ Dcrpg.txTypeSSGen := by
    intro p hp
    obtain ⟨a, b⟩ := p
    exact h a (List.of_mem_zip hp).1
  rw [Dcrpg.InsertVotes, Dcrpg.collectVotes_eq_nil _ hz]

/-- Claim C10 witness: a block whose stake transactions are a ticket
purchase (type 1) and a revocation (type 3), but no vote. -/
theorem claim_C10_noVotesNoDbTx_witness :
    (∀ tx ∈ [(⟨"t1", 1, 5, "bh", true⟩ : Dcrpg.DbTx), ⟨"t2", 3, 5, "bh", true⟩],
        tx.txType ≠ Dcrpg.txTypeSSGen)
  ∧ Dcrpg.InsertVotes [⟨"t1", 1, 5, "bh", true⟩, ⟨"t2", 3, 5, "bh", true⟩]
      [⟨"t1", [], 0, 0, true, []⟩, ⟨"t2", [], 0, 0, true, []⟩] ["v1"]
      (fun _ => 0) (fun _ => none) (fun _ => none) true false "prev" =
      Dcrpg.emptyVotesOut none :=
  ⟨by decide, claim_C10_noVotesNoDbTx _ _ _ _ _ _ _ _ _ (by decide)⟩

/-- Claim C5: for the votes collected for a block, each vote row sent to
the votes table takes its spent-ticket hash (and stake submission amount)
from input #1 and its reward from input #0 (the stakebase), every vote has
those two inputs, and the misses list left after the loop holds exactly
the header-declared validators whose tickets were not spent by the block's
votes. -/
theorem claim_C5_voteRowsAndMisses (dbTxns : List Dcrpg.DbTx) (msgTxs : List Dcrpg.MsgTx)
    (validators : List String) (fTx : String → Nat)
    (voteInsertId missInsertId : Nat → Option Nat) (checked upd : Bool) (prev : String)
    (vts : List (Dcrpg.DbTx × Dcrpg.MsgTx))
    (hok : Dcrpg.collectVotes (dbTxns.zip msgTxs) = .ok vts)
    (hne : vts ≠ [])
    (hnd : validators.Nodup)
    (hin : ∀ p ∈ vts, 2 ≤ p.2.txIns.length) :
    (Dcrpg.InsertVotes dbTxns msgTxs validators fTx voteInsertId missInsertId checked upd
        prev).spentTicketHashes =
      vts.map (fun p => (p.2.txIns.getD 1 default).prevOutHash)
  ∧ (Dcrpg.InsertVotes dbTxns msgTxs validators fTx voteInsertId missInsertId checked upd
        prev).voteRows = vts.map (Dcrpg.voteRowOf fTx prev)
  ∧ (∀ p ∈ vts, (p.2.txIns[0]?).isSome ∧ (p.2.txIns[1]?).isSome)
  ∧ (∀ p ∈ vts, ∀ t0 t1 : Dcrpg.TxIn, p.2.txIns[0]? = some t0 →
      p.2.txIns[1]? = some t1 →
        (Dcrpg.voteRowOf fTx prev p).ticketHash = t1.prevOutHash
        ∧ (Dcrpg.voteRowOf fTx prev p).stakeSubmissionAmount = t1.valueIn
        ∧ (Dcrpg.voteRowOf fTx prev p).reward = t0.valueIn)
  ∧ (∀ x : String,
      x ∈ (Dcrpg.InsertVotes dbTxns msgTxs validators fTx voteInsertId missInsertId checked
          upd prev).misses ↔
        x ∈ validators ∧
          x ∉ (Dcrpg.InsertVotes dbTxns msgTxs validators fTx voteInsertId missInsertId
              checked upd prev).spentTicketHashes)
  ∧ ((Dcrpg.InsertVotes dbTxns msgTxs validators fTx voteInsertId missInsertId checked upd
        prev).panicked = false →
      (Dcrpg.InsertVotes dbTxns msgTxs validators fTx voteInsertId missInsertId checked upd
        prev).missRows =
        (Dcrpg.InsertVotes dbTxns msgTxs validators fTx voteInsertId missInsertId checked upd
          prev).misses) := by
  cases vts with
  | nil => exact absurd rfl hne
  | cons v0 vr =>
    have hout : Dcrpg.InsertVotes dbTxns msgTxs validators fTx voteInsertId missInsertId
        checked upd prev =
        Dcrpg.finishVotes validators missInsertId
          (Dcrpg.voteLoop fTx voteInsertId checked upd prev 0
            ⟨[], [], [], validators, [], []⟩ (v0 :: vr)) := by
      rw [Dcrpg.InsertVotes, hok]
    obtain ⟨hf1, hf2, hf3, _, _, _, _, hf8⟩ := Dcrpg.finishVotes_fields validators missInsertId
      (Dcrpg.voteLoop fTx voteInsertId checked upd prev 0
        ⟨[], [], [], validators, [], []⟩ (v0 :: vr))
    have hhashes : (Dcrpg.InsertVotes dbTxns msgTxs validators fTx voteInsertId missInsertId
        checked upd prev).spentTicketHashes =
        (v0 :: vr).map (fun p => (p.2.txIns.getD 1 default).prevOutHash) := by
      rw [hout, hf1, Dcrpg.voteLoop_spentTicketHashes]
      rfl
    refine ⟨hhashes, ?_, ?_, ?_, ?_, ?_⟩
    · rw [hout, hf2, Dcrpg.voteLoop_voteRows]
      rfl
    · intro p hp
      have h2 := hin p hp
      constructor
      · rw [List.getElem?_eq_getElem (by omega)]
        rfl
      · rw [List.getElem?_eq_getElem (by omega)]
        rfl
    · intro p _ t0 t1 h0 h1
      refine ⟨?_, ?_, ?_⟩ <;>
        simp [Dcrpg.voteRowOf, List.getD_eq_getElem?_getD, h0, h1]
    · intro x
      rw [hhashes, hout, hf3, Dcrpg.voteLoop_misses]
      have hfold : ((v0 :: vr).foldl
            (fun m p => Dcrpg.removeMiss m ((p.2.txIns.getD 1 default).prevOutHash))
            validators) =
          (((v0 :: vr).map (fun p => (p.2.txIns.getD 1 default).prevOutHash)).foldl
            (fun m h => Dcrpg.removeMiss m h) validators) := by
        rw [List.foldl_map]
      rw [hfold]
      have hperm := Dcrpg.foldl_removeMiss_perm
        ((v0 :: vr).map (fun p => (p.2.txIns.getD 1 default).prevOutHash))
        validators validators (List.Perm.refl _)
      rw [hperm.mem_iff]
      exact Dcrpg.mem_foldl_erase _ _ hnd x
    · intro hpan
      rw [hout] at hpan ⊢
      rw [hf8 hpan, hf3]

/-- Claim C5 witness: a block with one vote spending ticket "t1" out of
declared validators ["t1", "t2"]. -/
theorem claim_C5_voteRowsAndMisses_witness :
    (Dcrpg.collectVotes ([(⟨"v1", 2, 5, "bh", true⟩ : Dcrpg.DbTx)].zip
        [(⟨"v1", [⟨50, "sb"⟩, ⟨20, "t1"⟩], 5, 1, true, []⟩ : Dcrpg.MsgTx)]) =
      .ok [(⟨"v1", 2, 5, "bh", true⟩, ⟨"v1", [⟨50, "sb"⟩, ⟨20, "t1"⟩], 5, 1, true, []⟩)])
  ∧ (["t1", "t2"] : List String).Nodup
  ∧ (Dcrpg.InsertVotes [⟨"v1", 2, 5, "bh", true⟩]
      [⟨"v1", [⟨50, "sb"⟩, ⟨20, "t1"⟩], 5, 1, true, []⟩] ["t1", "t2"]
      (fun _ => 7) (fun _ => some 1) (fun _ => some 2) true true "prevh").spentTicketHashes =
      [((⟨"v1", 2, 5, "bh", true⟩ : Dcrpg.DbTx),
        (⟨"v1", [⟨50, "sb"⟩, ⟨20, "t1"⟩], 5, 1, true, []⟩ : Dcrpg.MsgTx))].map
        (fun p => (p.2.txIns.getD 1 default).prevOutHash)
  ∧ (∀ x : String,
      x ∈ (Dcrpg.InsertVotes [⟨"v1", 2, 5, "bh", true⟩]
          [⟨"v1", [⟨50, "sb"⟩, ⟨20, "t1"⟩], 5, 1, true, []⟩] ["t1", "t2"]
          (fun _ => 7) (fun _ => some 1) (fun _ => some 2) true true "prevh").misses ↔
        x ∈ ["t1", "t2"] ∧
          x ∉ (Dcrpg.InsertVotes [⟨"v1", 2, 5, "bh", true⟩]
              [⟨"v1", [⟨50, "sb"⟩, ⟨20, "t1"⟩], 5, 1, true, []⟩] ["t1", "t2"]
              (fun _ => 7) (fun _ => some 1) (fun _ => some 2) true true
              "prevh").spentTicketHashes) :=
  ⟨by rfl, by decide,
    (claim_C5_voteRowsAndMisses [⟨"v1", 2, 5, "bh", true⟩]
      [⟨"v1", [⟨50, "sb"⟩, ⟨20, "t1"⟩], 5, 1, true, []⟩] ["t1", "t2"]
      (fun _ => 7) (fun _ => some 1) (fun _ => some 2) true true "prevh"
      [(⟨"v1", 2, 5, "bh", true⟩, ⟨"v1", [⟨50, "sb"⟩, ⟨20, "t1"⟩], 5, 1, true, []⟩)]
      (by rfl) (by decide) (by decide) (by decide)).1,
    (claim_C5_voteRowsAndMisses [⟨"v1", 2, 5, "bh", true⟩]
      [⟨"v1", [⟨50, "sb"⟩, ⟨20, "t1"⟩], 5, 1, true, []⟩] ["t1", "t2"]
      (fun _ => 7) (fun _ => some 1) (fun _ => some 2) true true "prevh"
      [(⟨"v1", 2, 5, "bh", true⟩, ⟨"v1", [⟨50, "sb"⟩, ⟨20, "t1"⟩], 5, 1, true, []⟩)]
      (by rfl) (by decide) (by decide) (by decide)).2.2.2.2.1⟩

namespace Dcrsqlite

/-!
## The block-by-block loop of resyncDB (db/dcrsqlite/sync.go)

The loop `for i := startHeight; i <= height; i++` is embedded with the
RPC / database round trips as boolean success oracles indexed by the loop
height: `cancelTop` is the ctx.Done() check at the loop top, `fetchOk` is
`getBlock` (the master path), `cancelWait`/`getterOk` are the
MasterBlockGetter path's wait-channel select and `blockGetter.Block`,
`connectOk` is `stakeDB.ConnectBlock`, `storeSummaryOk` and `storeStakeOk`
are the two SQLite stores, `feeOk` is `FeeRateInfoBlock` returning
non-nil, and `bestMidAOk`/`bestMidBOk`/`bestEndOk` are the three
`GetBestBlock` re-queries whose successful value is `newBest`.  A
successful `ConnectBlock` advances the stake DB by one block (per the
spec; package stakedb is not under src/).  The loop runs on fuel, since
the node's best height can keep growing.
-/

/-- Whether the loop coordinates with a MasterBlockGetter, and up to which
height the getter relays blocks. -/
structure SyncCfg where
  master : Bool
  fetchToHeight : Int

/-- The per-height outcomes of every fallible call in the loop body. -/
structure SyncOracle where
  cancelTop : Int → Bool
  fetchOk : Int → Bool
  cancelWait : Int → Bool
  getterOk : Int → Bool
  connectOk : Int → Bool
  bestMidAOk : Int → Bool
  storeSummaryOk : Int → Bool
  bestMidBOk : Int → Bool
  feeOk : Int → Bool
  storeStakeOk : Int → Bool
  bestEndOk : Int → Bool
  newBest : Int → Int

/-- The loop variables: current height `i`, the node's best height, the
SQLite block-summary and stake-info heights, and the stake DB height. -/
structure SyncState where
  i : Int
  height : Int
  summaryH : Int
  stakeInfoH : Int
  stakeDBH : Int
  deriving Repr, DecidableEq

/-- How a run of the loop ended. -/
inductive SyncExit where
  | cancelled (i : Int)
  | fetchFailed (i : Int)
  | getterFailed (i : Int)
  | connectFailed (i : Int)
  | bestFailedMid (i : Int)
  | summaryFailed (i : Int)
  | feeFailed (i : Int)
  | stakeFailed (i : Int)
  | bestFailedEnd (i : Int)
  | finished
  | fuelOut
  deriving Repr, DecidableEq

/-- One iteration's outcome: either a return (value, exit kind, state at
exit) or the state for the next iteration; plus anything printed. -/
structure StepOut where
  res : (Int × SyncExit × SyncState) ⊕ SyncState
  prints : List String
  deriving Repr, DecidableEq

/-- The iteration tail from the `i <= summaryHeight && i <= stakeInfoHeight`
check onward: skip blocks SQLite already has (re-querying the best
height), otherwise store the block summary and the stake info, each
failure returning `i - 1`, and the final `GetBestBlock` failure returning
`i` (block `i` is fully stored by then). -/
def syncStepStores (orc : SyncOracle) (s : SyncState) (pr : List String)
    (stakeDBH' : Int) : StepOut :=
  if s.i ≤ s.summaryH ∧ s.i ≤ s.stakeInfoH then
    if orc.bestMidAOk s.i then
      ⟨.inr ⟨s.i + 1, orc.newBest s.i, s.summaryH, s.stakeInfoH, stakeDBH'⟩, pr⟩
    else ⟨.inl (s.i - 1, .bestFailedMid s.i,
      ⟨s.i, s.height, s.summaryH, s.stakeInfoH, stakeDBH'⟩), pr⟩
  else
    if s.summaryH < s.i ∧ orc.storeSummaryOk s.i = false then
      ⟨.inl (s.i - 1, .summaryFailed s.i,
        ⟨s.i, s.height, s.summaryH, s.stakeInfoH, stakeDBH'⟩), pr⟩
    else
      let summaryH' := if s.summaryH < s.i then s.i else s.summaryH
      if s.i ≤ s.stakeInfoH then
        if orc.bestMidBOk s.i then
          ⟨.inr ⟨s.i + 1, orc.newBest s.i, summaryH', s.stakeInfoH, stakeDBH'⟩, pr⟩
        else ⟨.inl (s.i - 1, .bestFailedMid s.i,
          ⟨s.i, s.height, summaryH', s.stakeInfoH, stakeDBH'⟩), pr⟩
      else
        if orc.feeOk s.i = false then
          ⟨.inl (s.i - 1, .feeFailed s.i,
            ⟨s.i, s.height, summaryH', s.stakeInfoH, stakeDBH'⟩), pr⟩
        else if orc.storeStakeOk s.i = false then
          ⟨.inl (s.i - 1, .stakeFailed s.i,
            ⟨s.i, s.height, summaryH', s.stakeInfoH, stakeDBH'⟩), pr⟩
        else
          if orc.bestEndOk s.i then
            ⟨.inr ⟨s.i + 1, orc.newBest s.i, summaryH', s.i, stakeDBH'⟩, pr⟩
          else ⟨.inl (s.i, .bestFailedEnd s.i,
            ⟨s.i, s.height, summaryH', s.i, stakeDBH'⟩), pr⟩

/-- The `i > stakeDBHeight → stakeDB.ConnectBlock` segment. -/
def syncStepConnect (orc : SyncOracle) (s : SyncState) (pr : List String) : StepOut :=
  if s.stakeDBH < s.i then
    if orc.connectOk s.i then syncStepStores orc s pr (s.stakeDBH + 1)
    else ⟨.inl (s.i - 1, .connectFailed s.i, s), pr⟩
  else syncStepStores orc s pr s.stakeDBH

/-- One full loop iteration: cancellation check, the `i == 764` debug
print, block fetch (directly or through the MasterBlockGetter), then the
connect/store tail. -/
def syncStep (cfg : SyncCfg) (orc : SyncOracle) (s : SyncState) : StepOut :=
  if orc.cancelTop s.i then ⟨.inl (s.i - 1, .cancelled s.i, s), []⟩
  else
    let pr := if s.i = 764 then ["ttt"] else []
    if cfg.master ∨ s.i < cfg.fetchToHeight then
      if orc.fetchOk s.i then syncStepConnect orc s pr
      else ⟨.inl (s.i - 1, .fetchFailed s.i, s), pr⟩
    else if orc.cancelWait s.i then ⟨.inl (s.i - 1, .cancelled s.i, s), pr⟩
    else if orc.getterOk s.i then syncStepConnect orc s pr
    else ⟨.inl (s.i - 1, .getterFailed s.i, s), pr⟩

/-- A finished run: return value, exit kind, loop state at exit, and the
per-iteration prints (height paired with what that iteration printed). -/
structure SyncResult where
  ret : Int
  exit : SyncExit
  final : SyncState
  trace : List (Int × List String)
  deriving Repr, DecidableEq

/-- The loop `for i := startHeight; i <= height; i++`, on fuel. -/
def syncLoop (cfg : SyncCfg) (orc : SyncOracle) : Nat → SyncState → SyncResult
  | 0, s => ⟨s.i - 1, .fuelOut, s, []⟩
  | fuel + 1, s =>
    if s.height < s.i then ⟨s.height, .finished, s, []⟩
    else
      match syncStep cfg orc s with
      | ⟨.inl (r, e, sx), pr⟩ => ⟨r, e, sx, [(s.i, pr)]⟩
      | ⟨.inr s', pr⟩ =>
        let rest := syncLoop cfg orc fuel s'
        ⟨rest.ret, rest.exit, rest.final, (s.i, pr) :: rest.trace⟩

/-- An exit kind that means block `i` itself (its fetch, stake-DB connect,
store, or a mid-block best-height re-query) failed, or the run was
cancelled at block `i`. -/
def blockFailure (e : SyncExit) (i : Int) : Prop :=
  e = .cancelled i ∨ e = .fetchFailed i ∨ e = .getterFailed i ∨ e = .connectFailed i
    ∨ e = .summaryFailed i ∨ e = .feeFailed i ∨ e = .stakeFailed i ∨ e = .bestFailedMid i

/-- The loop invariant: entering an iteration for block `i`, both SQLite
tables hold at least blocks up to `i - 1`. -/
def SyncInv (s : SyncState) : Prop :=
  s.i - 1 ≤ s.summaryH ∧ s.i - 1 ≤ s.stakeInfoH

end Dcrsqlite

namespace Dcrsqlite

/-- Exit analysis of the store tail: every return is `i - 1` except the
end-of-iteration best-height re-query, which returns `i` with block `i`
fully stored; all returns are at most both SQLite heights at exit. -/
theorem syncStepStores_exit (orc : SyncOracle) (s : SyncState) (pr : List String)
    (dbh' : Int) (hinv : SyncInv s) :
    ∀ r e sx prx, syncStepStores orc s pr dbh' = ⟨.inl (r, e, sx), prx⟩ →
      (r ≤ sx.summaryH ∧ r ≤ sx.stakeInfoH)
      ∧ (∀ j, blockFailure e j → r = j - 1)
      ∧ (∀ j, e = .bestFailedEnd j → r = j ∧ sx.stakeInfoH = j ∧ j ≤ sx.summaryH) := by
  obtain ⟨h1, h2⟩ := hinv
  intro r e sx prx heq
  unfold syncStepStores at heq
  split_ifs at heq with hA hB hC hD hE hF hG hH <;>
    simp only [StepOut.mk.injEq, Sum.inl.injEq, Sum.inr.injEq, Prod.mk.injEq] at heq <;>
    obtain ⟨⟨hr, he, hsx⟩, -⟩ := heq <;> subst hr <;> subst he <;> subst hsx <;>
    refine ⟨by constructor <;> simp <;> omega, ?_, ?_⟩ <;> intro j hj <;>
    first
      | (rcases hj with h | h | h | h | h | h | h | h <;> simp_all <;> omega)
      | (simp_all <;> omega)
end Dcrsqlite

namespace Dcrsqlite

/-- The store tail preserves the loop invariant on the next-iteration
state. -/
theorem syncStepStores_next (orc : SyncOracle) (s : SyncState) (pr : List String)
    (dbh' : Int) (hinv : SyncInv s) :
    ∀ s' prx, syncStepStores orc s pr dbh' = ⟨.inr s', prx⟩ → SyncInv s' := by
  obtain ⟨h1, h2⟩ := hinv
  intro s' prx heq
  unfold syncStepStores at heq
  split_ifs at heq with hA hB hC hD hE hF hG hH <;>
    first
      | (simp only [StepOut.mk.injEq, Sum.inr.injEq] at heq
         obtain ⟨hs, -⟩ := heq
         subst hs
         refine ⟨?_, ?_⟩ <;> dsimp only <;> omega)
      | simp at heq

/-- Exit analysis of the connect-plus-store segment. -/
theorem syncStepConnect_exit (orc : SyncOracle) (s : SyncState) (pr : List String)
    (hinv : SyncInv s) :
    ∀ r e sx prx, syncStepConnect orc s pr = ⟨.inl (r, e, sx), prx⟩ →
      (r ≤ sx.summaryH ∧ r ≤ sx.stakeInfoH)
      ∧ (∀ j, blockFailure e j → r = j - 1)
      ∧ (∀ j, e = .bestFailedEnd j → r = j ∧ sx.stakeInfoH = j ∧ j ≤ sx.summaryH) := by
  intro r e sx prx heq
  unfold syncStepConnect at heq
  split_ifs at heq with hA hB
  · exact syncStepStores_exit orc s pr _ hinv r e sx prx heq
  · simp only [StepOut.mk.injEq, Sum.inl.injEq, Prod.mk.injEq] at heq
    obtain ⟨⟨hr, he, hsx⟩, -⟩ := heq
    subst hr
    subst he
    subst hsx
    obtain ⟨h1, h2⟩ := hinv
    refine ⟨⟨by omega, by omega⟩, ?_, ?_⟩ <;> intro j hj
    · rcases hj with h | h | h | h | h | h | h | h <;> simp_all
    · simp_all
  · exact syncStepStores_exit orc s pr _ hinv r e sx prx heq

/-- The connect-plus-store segment preserves the loop invariant. -/
theorem syncStepConnect_next (orc : SyncOracle) (s : SyncState) (pr : List String)
    (hinv : SyncInv s) :
    ∀ s' prx, syncStepConnect orc s pr = ⟨.inr s', prx⟩ → SyncInv s' := by
  intro s' prx heq
  unfold syncStepConnect at heq
  split_ifs at heq with hA hB
  · exact syncStepStores_next orc s pr _ hinv s' prx heq
  · simp at heq
  · exact syncStepStores_next orc s pr _ hinv s' prx heq

/-- Exit analysis of a full iteration. -/
theorem syncStep_exit (cfg : SyncCfg) (orc : SyncOracle) (s : SyncState)
    (hinv : SyncInv s) :
    ∀ r e sx prx, syncStep cfg orc s = ⟨.inl (r, e, sx), prx⟩ →
      (r ≤ sx.summaryH ∧ r ≤ sx.stakeInfoH)
      ∧ (∀ j, blockFailure e j → r = j - 1)
      ∧ (∀ j, e = .bestFailedEnd j → r = j ∧ sx.stakeInfoH = j ∧ j ≤ sx.summaryH) := by
  intro r e sx prx heq
  unfold syncStep at heq
  split_ifs at heq with hA hB hC hD hE
  all_goals
    first
      | exact syncStepConnect_exit orc s _ hinv r e sx prx heq
      | (simp only [StepOut.mk.injEq, Sum.inl.injEq, Prod.mk.injEq] at heq
         obtain ⟨⟨hr, he, hsx⟩, -⟩ := heq
         subst hr
         subst he
         subst hsx
         obtain ⟨h1, h2⟩ := hinv
         refine ⟨⟨by omega, by omega⟩, ?_, ?_⟩ <;> intro j hj
         · rcases hj with h | h | h | h | h | h | h | h <;> simp_all
         · simp_all)

/-- A full iteration preserves the loop invariant. -/
theorem syncStep_next (cfg : SyncCfg) (orc : SyncOracle) (s : SyncState)
    (hinv : SyncInv s) :
    ∀ s' prx, syncStep cfg orc s = ⟨.inr s', prx⟩ → SyncInv s' := by
  intro s' prx heq
  unfold syncStep at heq
  split_ifs at heq with hA hB hC hD hE
  all_goals
    first
      | exact syncStepConnect_next orc s _ hinv s' prx heq
      | simp at heq

end Dcrsqlite

namespace Dcrsqlite

/-- The store tail prints nothing of its own. -/
theorem syncStepStores_prints (orc : SyncOracle) (s : SyncState) (pr : List String)
    (dbh' : Int) : (syncStepStores orc s pr dbh').prints = pr := by
  unfold syncStepStores
  split_ifs <;> rfl

/-- The connect segment prints nothing of its own. -/
theorem syncStepConnect_prints (orc : SyncOracle) (s : SyncState) (pr : List String) :
    (syncStepConnect orc s pr).prints = pr := by
  unfold syncStepConnect
  split_ifs <;> first | rfl | apply syncStepStores_prints

/-- What one iteration prints: nothing when cancelled at the top,
otherwise the "ttt" debug line exactly at height 764. -/
theorem syncStep_prints (cfg : SyncCfg) (orc : SyncOracle) (s : SyncState) :
    (syncStep cfg orc s).prints =
      if orc.cancelTop s.i then [] else if s.i = 764 then ["ttt"] else [] := by
  unfold syncStep
  split_ifs <;> simp_all [syncStepConnect_prints]

/-- Every entry of a run's trace: an iteration at height `j` prints the
"ttt" debug line exactly when `j = 764` and the iteration was not
cancelled at its top. -/
theorem syncLoop_trace (cfg : SyncCfg) (orc : SyncOracle) :
    ∀ (fuel : Nat) (s : SyncState), ∀ p ∈ (syncLoop cfg orc fuel s).trace,
      ("ttt" ∈ p.2 ↔ (p.1 = 764 ∧ orc.cancelTop p.1 = false)) := by
  intro fuel
  induction fuel with
  | zero =>
    intro s p hp
    simp [syncLoop] at hp
  | succ n ih =>
    intro s p hp
    rw [syncLoop] at hp
    split_ifs at hp with hh
    · simp at hp
    · have hpr := syncStep_prints cfg orc s
      cases hstep : syncStep cfg orc s with
      | mk res prints =>
        rw [hstep] at hp hpr
        dsimp at hpr
        cases res with
        | inl out =>
          obtain ⟨r, e, sx⟩ := out
          dsimp at hp
          simp only [List.mem_singleton] at hp
          subst hp
          dsimp
          rw [hpr]
          split_ifs with hc h7 <;> simp_all
        | inr s' =>
          dsimp at hp
          rcases (List.mem_cons).mp hp with hph | hpt
          · subst hph
            dsimp
            rw [hpr]
            split_ifs with hc h7 <;> simp_all
          · exact ih s' p hpt

/-- The loop's return-value guarantees: the returned height never exceeds
either SQLite table's height at exit; any cancellation or failure while
fetching, connecting, or storing block `j` returns exactly `j - 1`; and
the end-of-iteration best-height re-query failure returns `j` only with
block `j` fully stored. -/
theorem syncLoop_spec (cfg : SyncCfg) (orc : SyncOracle) :
    ∀ (fuel : Nat) (s : SyncState), SyncInv s →
      ((syncLoop cfg orc fuel s).ret ≤ (syncLoop cfg orc fuel s).final.summaryH
        ∧ (syncLoop cfg orc fuel s).ret ≤ (syncLoop cfg orc fuel s).final.stakeInfoH)
    ∧ (∀ j, blockFailure (syncLoop cfg orc fuel s).exit j →
        (syncLoop cfg orc fuel s).ret = j - 1)
    ∧ (∀ j, (syncLoop cfg orc fuel s).exit = .bestFailedEnd j →
        (syncLoop cfg orc fuel s).ret = j
          ∧ (syncLoop cfg orc fuel s).final.stakeInfoH = j
          ∧ j ≤ (syncLoop cfg orc fuel s).final.summaryH) := by
  intro fuel
  induction fuel with
  | zero =>
    intro s hinv
    obtain ⟨h1, h2⟩ := hinv
    refine ⟨⟨?_, ?_⟩, ?_, ?_⟩ <;> simp only [syncLoop]
    · exact h1
    · exact h2
    · intro j hj
      rcases hj with h | h | h | h | h | h | h | h <;> simp at h
    · intro j hj
      simp at hj
  | succ n ih =>
    intro s hinv
    by_cases hh : s.height < s.i
    · obtain ⟨h1, h2⟩ := hinv
      simp only [syncLoop, if_pos hh]
      refine ⟨⟨by omega, by omega⟩, ?_, ?_⟩
      · intro j hj
        rcases hj with h | h | h | h | h | h | h | h <;> simp at h
      · intro j hj
        simp at hj
    · simp only [syncLoop, if_neg hh]
      cases hstep : syncStep cfg orc s with
      | mk res prints =>
        cases res with
        | inl out =>
          obtain ⟨r, e, sx⟩ := out
          obtain ⟨hx1, hx2, hx3⟩ := syncStep_exit cfg orc s hinv r e sx prints hstep
          exact ⟨hx1, hx2, hx3⟩
        | inr s' =>
          have hinv' := syncStep_next cfg orc s hinv s' prints hstep
          obtain ⟨hy1, hy2, hy3⟩ := ih s' hinv'
          exact ⟨hy1, hy2, hy3⟩

end Dcrsqlite

/-- Claim C7: in the sync engine's block loop, cancellation and every
error while fetching, connecting, or storing block j make the loop stop
and return j - 1; the end-of-iteration best-height re-query failure
returns j only once block j is fully stored; and every returned height is
at most both SQLite table heights at exit (no height greater than the
last committed one is reported).  The hypothesis is the loop invariant at
entry: both tables hold blocks up to the starting height minus one. -/
theorem claim_C7_syncLoopReturns (cfg : Dcrsqlite.SyncCfg) (orc : Dcrsqlite.SyncOracle)
    (fuel : Nat) (s : Dcrsqlite.SyncState) (hinv : Dcrsqlite.SyncInv s) :
    ((Dcrsqlite.syncLoop cfg orc fuel s).ret ≤
        (Dcrsqlite.syncLoop cfg orc fuel s).final.summaryH
      ∧ (Dcrsqlite.syncLoop cfg orc fuel s).ret ≤
        (Dcrsqlite.syncLoop cfg orc fuel s).final.stakeInfoH)
  ∧ (∀ j, Dcrsqlite.blockFailure (Dcrsqlite.syncLoop cfg orc fuel s).exit j →
      (Dcrsqlite.syncLoop cfg orc fuel s).ret = j - 1)
  ∧ (∀ j, (Dcrsqlite.syncLoop cfg orc fuel s).exit = .bestFailedEnd j →
      (Dcrsqlite.syncLoop cfg orc fuel s).ret = j
        ∧ (Dcrsqlite.syncLoop cfg orc fuel s).final.stakeInfoH = j
        ∧ j ≤ (Dcrsqlite.syncLoop cfg orc fuel s).final.summaryH) :=
  Dcrsqlite.syncLoop_spec cfg orc fuel s hinv

/-- Claim C7 witness: a run from height 3 with a getBlock failure at
height 4, over stores synced to height 2. -/
theorem claim_C7_syncLoopReturns_witness :
    Dcrsqlite.SyncInv ⟨3, 5, 2, 2, 2⟩
  ∧ (((Dcrsqlite.syncLoop ⟨true, 0⟩
        ⟨fun _ => false, fun i => decide (i ≠ 4), fun _ => false, fun _ => true,
         fun _ => true, fun _ => true, fun _ => true, fun _ => true, fun _ => true,
         fun _ => true, fun _ => true, fun _ => 5⟩ 10 ⟨3, 5, 2, 2, 2⟩).ret ≤
      (Dcrsqlite.syncLoop ⟨true, 0⟩
        ⟨fun _ => false, fun i => decide (i ≠ 4), fun _ => false, fun _ => true,
         fun _ => true, fun _ => true, fun _ => true, fun _ => true, fun _ => true,
         fun _ => true, fun _ => true, fun _ => 5⟩ 10 ⟨3, 5, 2, 2, 2⟩).final.summaryH)
    ∧ (∀ j, Dcrsqlite.blockFailure
        (Dcrsqlite.syncLoop ⟨true, 0⟩
          ⟨fun _ => false, fun i => decide (i ≠ 4), fun _ => false, fun _ => true,
           fun _ => true, fun _ => true, fun _ => true, fun _ => true, fun _ => true,
           fun _ => true, fun _ => true, fun _ => 5⟩ 10 ⟨3, 5, 2, 2, 2⟩).exit j →
        (Dcrsqlite.syncLoop ⟨true, 0⟩
          ⟨fun _ => false, fun i => decide (i ≠ 4), fun _ => false, fun _ => true,
           fun _ => true, fun _ => true, fun _ => true, fun _ => true, fun _ => true,
           fun _ => true, fun _ => true, fun _ => 5⟩ 10 ⟨3, 5, 2, 2, 2⟩).ret = j - 1)) :=
  ⟨⟨by decide, by decide⟩,
    (claim_C7_syncLoopReturns ⟨true, 0⟩
      ⟨fun _ => false, fun i => decide (i ≠ 4), fun _ => false, fun _ => true,
       fun _ => true, fun _ => true, fun _ => true, fun _ => true, fun _ => true,
       fun _ => true, fun _ => true, fun _ => 5⟩ 10 ⟨3, 5, 2, 2, 2⟩
      ⟨by decide, by decide⟩).1.1,
    (claim_C7_syncLoopReturns ⟨true, 0⟩
      ⟨fun _ => false, fun i => decide (i ≠ 4), fun _ => false, fun _ => true,
       fun _ => true, fun _ => true, fun _ => true, fun _ => true, fun _ => true,
       fun _ => true, fun _ => true, fun _ => 5⟩ 10 ⟨3, 5, 2, 2, 2⟩
      ⟨by decide, by decide⟩).2.1⟩

/-- Claim C3: the guarded panic and the debug print.  In a run of
InsertVotes that began its database transaction, the panic fires exactly
when the validator list is non-empty and inserted votes plus remaining
misses differ from TicketsPerBlock = 5, and the transaction is rolled
back before the panic; runs that never begin a transaction cannot panic.
In the sync engine's block loop, an iteration prints the debug string
"ttt" exactly when its height is 764 (and it was not cancelled at its
top). -/
theorem claim_C3_guardedPanicAndDebugPrint (dbTxns : List Dcrpg.DbTx)
    (msgTxs : List Dcrpg.MsgTx) (validators : List String) (fTx : String → Nat)
    (voteInsertId missInsertId : Nat → Option Nat) (checked upd : Bool) (prev : String)
    (cfg : Dcrsqlite.SyncCfg) (orc : Dcrsqlite.SyncOracle) (fuel : Nat)
    (s : Dcrsqlite.SyncState) :
    ((Dcrpg.InsertVotes dbTxns msgTxs validators fTx voteInsertId missInsertId checked upd
        prev).beganTx = true →
      ((Dcrpg.InsertVotes dbTxns msgTxs validators fTx voteInsertId missInsertId checked upd
          prev).panicked = true ↔
        (validators ≠ [] ∧
          (Dcrpg.InsertVotes dbTxns msgTxs validators fTx voteInsertId missInsertId checked
              upd prev).ids.length +
            (Dcrpg.InsertVotes dbTxns msgTxs validators fTx voteInsertId missInsertId checked
              upd prev).misses.length ≠ 5)))
  ∧ ((Dcrpg.InsertVotes dbTxns msgTxs validators fTx voteInsertId missInsertId checked upd
        prev).panicked = true →
      (Dcrpg.InsertVotes dbTxns msgTxs validators fTx voteInsertId missInsertId checked upd
        prev).rolledBack = true)
  ∧ ((Dcrpg.InsertVotes dbTxns msgTxs validators fTx voteInsertId missInsertId checked upd
        prev).beganTx = false →
      (Dcrpg.InsertVotes dbTxns msgTxs validators fTx voteInsertId missInsertId checked upd
        prev).panicked = false)
  ∧ (∀ p ∈ (Dcrsqlite.syncLoop cfg orc fuel s).trace,
      ("ttt" ∈ p.2 ↔ (p.1 = 764 ∧ orc.cancelTop p.1 = false))) := by
  cases hok : Dcrpg.collectVotes (dbTxns.zip msgTxs) with
  | error e =>
    have hout : Dcrpg.InsertVotes dbTxns msgTxs validators fTx voteInsertId missInsertId
        checked upd prev = Dcrpg.emptyVotesOut (some e) := by
      rw [Dcrpg.InsertVotes, hok]
    rw [hout]
    exact ⟨fun h => by simp [Dcrpg.emptyVotesOut] at h,
      fun h => by simp [Dcrpg.emptyVotesOut] at h, fun _ => rfl,
      Dcrsqlite.syncLoop_trace cfg orc fuel s⟩
  | ok voteTxs =>
    cases voteTxs with
    | nil =>
      have hout : Dcrpg.InsertVotes dbTxns msgTxs validators fTx voteInsertId missInsertId
          checked upd prev = Dcrpg.emptyVotesOut none := by
        rw [Dcrpg.InsertVotes, hok]
      rw [hout]
      exact ⟨fun h => by simp [Dcrpg.emptyVotesOut] at h,
        fun h => by simp [Dcrpg.emptyVotesOut] at h, fun _ => rfl,
        Dcrsqlite.syncLoop_trace cfg orc fuel s⟩
    | cons v vs =>
      have hout : Dcrpg.InsertVotes dbTxns msgTxs validators fTx voteInsertId missInsertId
          checked upd prev =
          Dcrpg.finishVotes validators missInsertId
            (Dcrpg.voteLoop fTx voteInsertId checked upd prev 0
              ⟨[], [], [], validators, [], []⟩ (v :: vs)) := by
        rw [Dcrpg.InsertVotes, hok]
      obtain ⟨-, -, f3, f4, f5, f6, f7, -⟩ := Dcrpg.finishVotes_fields validators missInsertId
        (Dcrpg.voteLoop fTx voteInsertId checked upd prev 0
          ⟨[], [], [], validators, [], []⟩ (v :: vs))
      rw [hout]
      refine ⟨?_, ?_, ?_, Dcrsqlite.syncLoop_trace cfg orc fuel s⟩
      · intro _
        rw [f6, f3, f4]
        simp
      · intro hp
        rw [f7, hp]
      · intro hb
        rw [f5] at hb
        simp at hb

/-- Claim C3 witness: a panicking InsertVotes run (one vote against two
declared validators: 1 + 1 differs from 5) and a sync run whose loop passes
height 764 and prints "ttt" there. -/
theorem claim_C3_guardedPanicAndDebugPrint_witness :
    (764, ["ttt"]) ∈ (Dcrsqlite.syncLoop ⟨true, 0⟩
      ⟨fun _ => false, fun _ => true, fun _ => false, fun _ => true, fun _ => true,
       fun _ => true, fun _ => true, fun _ => true, fun _ => true, fun _ => true,
       fun _ => true, fun _ => 765⟩ 5 ⟨763, 765, 762, 762, 762⟩).trace
  ∧ (Dcrpg.InsertVotes [⟨"v1", 2, 5, "bh", true⟩]
      [⟨"v1", [⟨50, "sb"⟩, ⟨20, "t1"⟩], 5, 1, true, []⟩] ["t1", "t2"]
      (fun _ => 7) (fun _ => some 1) (fun _ => some 2) true true "prevh").panicked = true
  ∧ (((Dcrpg.InsertVotes [⟨"v1", 2, 5, "bh", true⟩]
      [⟨"v1", [⟨50, "sb"⟩, ⟨20, "t1"⟩], 5, 1, true, []⟩] ["t1", "t2"]
      (fun _ => 7) (fun _ => some 1) (fun _ => some 2) true true "prevh").panicked = true →
      (Dcrpg.InsertVotes [⟨"v1", 2, 5, "bh", true⟩]
        [⟨"v1", [⟨50, "sb"⟩, ⟨20, "t1"⟩], 5, 1, true, []⟩] ["t1", "t2"]
        (fun _ => 7) (fun _ => some 1) (fun _ => some 2) true true "prevh").rolledBack = true)
    ∧ (∀ p ∈ (Dcrsqlite.syncLoop ⟨true, 0⟩
        ⟨fun _ => false, fun _ => true, fun _ => false, fun _ => true, fun _ => true,
         fun _ => true, fun _ => true, fun _ => true, fun _ => true, fun _ => true,
         fun _ => true, fun _ => 765⟩ 5 ⟨763, 765, 762, 762, 762⟩).trace,
        ("ttt" ∈ p.2 ↔ (p.1 = 764 ∧ false = false)))) :=
  ⟨by decide, by decide,
    (claim_C3_guardedPanicAndDebugPrint [⟨"v1", 2, 5, "bh", true⟩]
      [⟨"v1", [⟨50, "sb"⟩, ⟨20, "t1"⟩], 5, 1, true, []⟩] ["t1", "t2"]
      (fun _ => 7) (fun _ => some 1) (fun _ => some 2) true true "prevh"
      ⟨true, 0⟩
      ⟨fun _ => false, fun _ => true, fun _ => false, fun _ => true, fun _ => true,
       fun _ => true, fun _ => true, fun _ => true, fun _ => true, fun _ => true,
       fun _ => true, fun _ => 765⟩ 5 ⟨763, 765, 762, 762, 762⟩).2.1,
    (claim_C3_guardedPanicAndDebugPrint [⟨"v1", 2, 5, "bh", true⟩]
      [⟨"v1", [⟨50, "sb"⟩, ⟨20, "t1"⟩], 5, 1, true, []⟩] ["t1", "t2"]
      (fun _ => 7) (fun _ => some 1) (fun _ => some 2) true true "prevh"
      ⟨true, 0⟩
      ⟨fun _ => false, fun _ => true, fun _ => false, fun _ => true, fun _ => true,
       fun _ => true, fun _ => true, fun _ => true, fun _ => true, fun _ => true,
       fun _ => true, fun _ => 765⟩ 5 ⟨763, 765, 762, 762, 762⟩).2.2.2⟩

namespace Dcrpg

/-!
## Spending-side address rows (src/unnamed/part_001)

The addresses table is a row list; the UPDATE and INSERT statement texts
live in db/dcrpg/internal/addrstmts.go, which is not under src/, so their
row-level semantics is modelled from the spec (set `matching_tx_hash` on
the funding address rows looked up by funding tx hash and output index;
insert one spending row whose `matching_tx_hash` is the funder).  The
surrounding control flow — the vout/value resolution, the
`updateFundingRow` call into `setSpendingForFundingOP`, and the coinbase
skip in `SetSpendingForVinDbIDs` — is transcribed from the source.
-/

/-- `zeroHashStringBytes`: the string form of the zero hash (64 zeros). -/
def zeroHashStr : String := String.mk (List.replicate 64 '0')

/-- A row of the addresses table. -/
structure AddrRow where
  address : String
  txHash : String
  matchingTxHash : Option String
  vinVoutIndex : Nat
  vinVoutDbID : Nat
  value : Int
  isFunding : Bool
  validMainchain : Bool
  deriving Repr, DecidableEq

/-- Whether a row is a funding row of the given outpoint. -/
def fundsOutpoint (r : AddrRow) (fundingTxHash : String) (voutIndex : Nat) : Bool :=
  r.isFunding && r.txHash == fundingTxHash && r.vinVoutIndex == voutIndex

/-- Modelled from the spec: the UPDATE behind
`internal.SetAddressMatchingTxHashForOutpoint` (addrstmts.go is not under
src/) sets `matching_tx_hash` to the spending tx hash on the funding
address rows for the outpoint (funding tx hash, output index). -/
def setAddressMatchingTxHashForOutpoint (tbl : List AddrRow)
    (spendingTxHash fundingTxHash : String) (voutIndex : Nat) : List AddrRow :=
  tbl.map fun r =>
    if fundsOutpoint r fundingTxHash voutIndex then
      { r with matchingTxHash := some spendingTxHash }
    else r

/-- `setSpendingForFundingOP`: run the update and report rows affected. -/
def setSpendingForFundingOP (tbl : List AddrRow) (fundingTxHash : String)
    (fundingTxVoutIndex : Nat) (spendingTxHash : String) : List AddrRow × Nat :=
  (setAddressMatchingTxHashForOutpoint tbl spendingTxHash fundingTxHash fundingTxVoutIndex,
   (tbl.filter fun r => fundsOutpoint r fundingTxHash fundingTxVoutIndex).length)

/-- The vout data passed by the block-insert caller. -/
structure UTXOData where
  address : String
  value : Int
  deriving Repr, DecidableEq

/-- `insertSpendingAddressRow`: resolve the spent output's address and
value (from `utxoData` if provided, else from the vouts-table row
`voutAddrsValue`, an oracle for the SelectAddressByTxHash query, taking
the first address), insert the spending row — whose `matching_tx_hash`
is the funding tx hash — and, when `updateFundingRow` is set, update the
matching funding rows with the spending tx hash.  Returns the new table
and the number of funding rows updated. -/
def insertSpendingAddressRow (tbl : List AddrRow) (fundingTxHash : String)
    (fundingTxVoutIndex : Nat) (spendingTxHash : String) (spendingTxVinIndex : Nat)
    (vinDbID : Nat) (utxoData : Option UTXOData)
    (voutAddrsValue : Option (List String × Int)) (validMainchain : Bool)
    (updateFundingRow : Bool) : List AddrRow × Nat :=
  let av : String × Int :=
    match utxoData with
    | some u => (u.address, u.value)
    | none =>
      match voutAddrsValue with
      | some (addrs, v) => (addrs.headD "", v)
      | none => ("", 0)
  let spendRow : AddrRow :=
    { address := av.1, txHash := spendingTxHash, matchingTxHash := some fundingTxHash
      vinVoutIndex := spendingTxVinIndex, vinVoutDbID := vinDbID, value := av.2
      isFunding := false, validMainchain := validMainchain }
  let tbl1 := tbl ++ [spendRow]
  if updateFundingRow then
    setSpendingForFundingOP tbl1 fundingTxHash fundingTxVoutIndex spendingTxHash
  else (tbl1, 0)

/-- A row of the vins table as selected by SelectVinVoutPairByID. -/
structure VinRow where
  txHash : String
  txVinInd : Nat
  prevOutHash : String
  prevOutVoutInd : Nat
  deriving Repr, DecidableEq

/-- The loop of `SetSpendingForVinDbIDs`: look up each vin row, skip
coinbase inputs (zero-hash previous outpoint), otherwise update the
funding rows of the previous outpoint; a lookup failure aborts (`none`,
the caller rolls back). -/
def setSpendingForVinDbIDsLoop (vinGet : Nat → Option VinRow) :
    List Nat → List AddrRow → Option (List AddrRow × List Nat × Nat)
  | [], tbl => some (tbl, [], 0)
  | id :: rest, tbl =>
    match vinGet id with
    | none => none
    | some vin =>
      if vin.prevOutHash == zeroHashStr then
        match setSpendingForVinDbIDsLoop vinGet rest tbl with
        | none => none
        | some (tbl', arr, tot) => some (tbl', 0 :: arr, tot)
      else
        match setSpendingForFundingOP tbl vin.prevOutHash vin.prevOutVoutInd vin.txHash with
        | (tbl1, n) =>
          match setSpendingForVinDbIDsLoop vinGet rest tbl1 with
          | none => none
          | some (tbl', arr, tot) => some (tbl', n :: arr, tot + n)

/-- `SetSpendingForVinDbIDs`: run the loop inside one DB transaction; on
a lookup error the transaction is rolled back, leaving the table
unchanged. -/
def SetSpendingForVinDbIDs (tbl : List AddrRow) (vinGet : Nat → Option VinRow)
    (vinDbIDs : List Nat) : List AddrRow × Option (List Nat × Nat) :=
  match setSpendingForVinDbIDsLoop vinGet vinDbIDs tbl with
  | none => (tbl, none)
  | some (tbl', arr, tot) => (tbl', some (arr, tot))

end Dcrpg

namespace Dcrpg

/-- Processing vin rows that all have a zero-hash previous outpoint
leaves the addresses table untouched and updates no rows. -/
theorem setSpendingForVinDbIDsLoop_skip (vinGet : Nat → Option VinRow) :
    ∀ (ids : List Nat) (tbl : List AddrRow),
      (∀ i ∈ ids, ∃ v, vinGet i = some v ∧ v.prevOutHash = zeroHashStr) →
      setSpendingForVinDbIDsLoop vinGet ids tbl = some (tbl, ids.map (fun _ => 0), 0) := by
  intro ids
  induction ids with
  | nil => intro tbl _; rfl
  | cons id rest ih =>
    intro tbl h
    obtain ⟨v, hv, hz⟩ := h id (List.mem_cons_self id rest)
    rw [setSpendingForVinDbIDsLoop, hv]
    rw [ih tbl fun i hi => h i (List.mem_cons_of_mem _ hi)]
    simp [hz]

end Dcrpg

/-- Claim C4: inserting a spending-side address row for a vin (with the
funding-row update enabled) appends the spending row — whose
matching_tx_hash is the funder — and sets matching_tx_hash to the
spending tx hash on exactly the funding rows for the referenced outpoint
(matched by funding tx hash and output index), leaving all other rows
unchanged; and in the bulk vin-processing path, coinbase inputs
(zero-hash previous outpoint) are skipped: they cause no funding-row
update at all. -/
theorem claim_C4_spendingLinkage (tbl : List Dcrpg.AddrRow) (fundingTxHash : String)
    (fundingTxVoutIndex : Nat) (spendingTxHash : String) (spendingTxVinIndex vinDbID : Nat)
    (utxoData : Option Dcrpg.UTXOData) (voutAddrsValue : Option (List String × Int))
    (validMainchain : Bool) (vinGet : Nat → Option Dcrpg.VinRow) (vinDbIDs : List Nat) :
    (∀ (k : Nat) (r : Dcrpg.AddrRow), tbl[k]? = some r →
      ((Dcrpg.insertSpendingAddressRow tbl fundingTxHash fundingTxVoutIndex spendingTxHash
          spendingTxVinIndex vinDbID utxoData voutAddrsValue validMainchain true).1)[k]? =
        some (if Dcrpg.fundsOutpoint r fundingTxHash fundingTxVoutIndex then
          { r with matchingTxHash := some spendingTxHash } else r))
  ∧ (∃ row : Dcrpg.AddrRow,
      ((Dcrpg.insertSpendingAddressRow tbl fundingTxHash fundingTxVoutIndex spendingTxHash
          spendingTxVinIndex vinDbID utxoData voutAddrsValue validMainchain
          true).1)[tbl.length]? = some row
      ∧ row.isFunding = false
      ∧ row.txHash = spendingTxHash
      ∧ row.matchingTxHash = some fundingTxHash
      ∧ row.vinVoutIndex = spendingTxVinIndex)
  ∧ ((Dcrpg.insertSpendingAddressRow tbl fundingTxHash fundingTxVoutIndex spendingTxHash
        spendingTxVinIndex vinDbID utxoData voutAddrsValue validMainchain true).1).length =
      tbl.length + 1
  ∧ ((∀ i ∈ vinDbIDs, ∃ v, vinGet i = some v ∧ v.prevOutHash = Dcrpg.zeroHashStr) →
      Dcrpg.SetSpendingForVinDbIDs tbl vinGet vinDbIDs =
        (tbl, some (vinDbIDs.map fun _ => 0, 0))) := by
  refine ⟨?_, ?_, ?_, ?_⟩
  · intro k r hr
    have hk : k < tbl.length := by
      rcases Nat.lt_or_ge k tbl.length with h | h
      · exact h
      · rw [List.getElem?_eq_none h] at hr
        cases hr
    simp only [Dcrpg.insertSpendingAddressRow, Dcrpg.setSpendingForFundingOP,
      Dcrpg.setAddressMatchingTxHashForOutpoint, if_pos trivial]
    rw [List.getElem?_map, List.getElem?_append_left hk, hr]
    rfl
  · simp only [Dcrpg.insertSpendingAddressRow, Dcrpg.setSpendingForFundingOP,
      Dcrpg.setAddressMatchingTxHashForOutpoint, if_pos trivial]
    rw [List.getElem?_map, List.getElem?_concat_length]
    refine ⟨_, rfl, ?_⟩
    simp [Dcrpg.fundsOutpoint]
  · simp only [Dcrpg.insertSpendingAddressRow, Dcrpg.setSpendingForFundingOP,
      Dcrpg.setAddressMatchingTxHashForOutpoint, if_pos trivial]
    simp
  · intro h
    rw [Dcrpg.SetSpendingForVinDbIDs, Dcrpg.setSpendingForVinDbIDsLoop_skip vinGet vinDbIDs tbl h]

/-- Claim C4 witness: a two-row table whose funding row for outpoint
("ftx", 0) gets matching_tx_hash "stx" when the spending row is inserted,
while the other row is untouched; and a coinbase vin (zero-hash previous
outpoint) that leaves the table unchanged. -/
theorem claim_C4_spendingLinkage_witness :
    ([(⟨"addrA", "ftx", none, 0, 11, 100, true, true⟩ : Dcrpg.AddrRow),
      ⟨"addrB", "otx", none, 1, 12, 50, true, true⟩])[0]? =
      some ⟨"addrA", "ftx", none, 0, 11, 100, true, true⟩
  ∧ ((Dcrpg.insertSpendingAddressRow
      [⟨"addrA", "ftx", none, 0, 11, 100, true, true⟩,
       ⟨"addrB", "otx", none, 1, 12, 50, true, true⟩]
      "ftx" 0 "stx" 0 21 (some ⟨"addrA", 100⟩) none true true).1)[0]? =
      some ⟨"addrA", "ftx", some "stx", 0, 11, 100, true, true⟩
  ∧ ((Dcrpg.insertSpendingAddressRow
      [⟨"addrA", "ftx", none, 0, 11, 100, true, true⟩,
       ⟨"addrB", "otx", none, 1, 12, 50, true, true⟩]
      "ftx" 0 "stx" 0 21 (some ⟨"addrA", 100⟩) none true true).1)[1]? =
      some ⟨"addrB", "otx", none, 1, 12, 50, true, true⟩
  ∧ Dcrpg.SetSpendingForVinDbIDs
      [⟨"addrA", "ftx", none, 0, 11, 100, true, true⟩,
       ⟨"addrB", "otx", none, 1, 12, 50, true, true⟩]
      (fun _ => some ⟨"stx", 0, Dcrpg.zeroHashStr, 0⟩) [5] =
      ([⟨"addrA", "ftx", none, 0, 11, 100, true, true⟩,
        ⟨"addrB", "otx", none, 1, 12, 50, true, true⟩], some ([0], 0)) :=
  ⟨rfl,
    by
      have h := (claim_C4_spendingLinkage
        [⟨"addrA", "ftx", none, 0, 11, 100, true, true⟩,
         ⟨"addrB", "otx", none, 1, 12, 50, true, true⟩]
        "ftx" 0 "stx" 0 21 (some ⟨"addrA", 100⟩) none true
        (fun _ => some ⟨"stx", 0, Dcrpg.zeroHashStr, 0⟩) [5]).1 0
        ⟨"addrA", "ftx", none, 0, 11, 100, true, true⟩ rfl
      simpa using h,
    by
      have h := (claim_C4_spendingLinkage
        [⟨"addrA", "ftx", none, 0, 11, 100, true, true⟩,
         ⟨"addrB", "otx", none, 1, 12, 50, true, true⟩]
        "ftx" 0 "stx" 0 21 (some ⟨"addrA", 100⟩) none true
        (fun _ => some ⟨"stx", 0, Dcrpg.zeroHashStr, 0⟩) [5]).1 1
        ⟨"addrB", "otx", none, 1, 12, 50, true, true⟩ rfl
      simpa using h,
    by
      have h := (claim_C4_spendingLinkage
        [⟨"addrA", "ftx", none, 0, 11, 100, true, true⟩,
         ⟨"addrB", "otx", none, 1, 12, 50, true, true⟩]
        "ftx" 0 "stx" 0 21 (some ⟨"addrA", 100⟩) none true
        (fun _ => some ⟨"stx", 0, Dcrpg.zeroHashStr, 0⟩) [5]).2.2.2
        (fun i _ => ⟨⟨"stx", 0, Dcrpg.zeroHashStr, 0⟩, rfl, rfl⟩)
      simpa using h⟩

namespace Rpcutils

/-!
## CommonAncestor (rpcutils/rpcclient.go)

Block hashes are abstracted as naturals with `0` for `chainhash.Hash{}`
(the zero hash); the node's `GetBlock` is the oracle `chain`, returning
the header fields the walk uses (height and previous hash).  The loop's
`length` counter is part of the Go code and is returned alongside the
result so the step bound can be stated.
-/

/-- `maxAncestorChainLength` from rpcclient.go. -/
def maxAncestorChainLength : Nat := 8192

/-- The zero hash (`chainhash.Hash{}`). -/
def zeroHash : Nat := 0

/-- The header fields of a fetched block used by the walk. -/
structure Header where
  height : Nat
  prevBlock : Nat
  deriving Repr, DecidableEq

/-- The outcome of the common-ancestor search. -/
inductive CAResult where
  | ok (ancestor : Nat) (chainA chainB : List Nat)
  | atGenesis (chainA chainB : List Nat)
  | maxChainLength
  | blockNotFound (h : Nat)
  deriving Repr, DecidableEq

/-- The loop of `CommonAncestor`: step the higher side down to its
previous block (prepending the visited hash to its chain) until heights
match, then prepend both and either fail at genesis, succeed when the
previous hashes coincide, or step both sides.  The bound is checked at
the top of every iteration; the returned `Nat` is the `length` counter at
exit. -/
def caLoop (chain : Nat → Option Header) (hashA hashB : Nat)
    (chainA chainB : List Nat) (length : Nat) : CAResult × Nat :=
  if hguard : maxAncestorChainLength ≤ length then (.maxChainLength, length)
  else
    match chain hashA with
    | none => (.blockNotFound hashA, length)
    | some bA =>
      match chain hashB with
      | none => (.blockNotFound hashB, length)
      | some bB =>
        if bB.height < bA.height then
          caLoop chain bA.prevBlock hashB (hashA :: chainA) chainB (length + 1)
        else if bA.height < bB.height then
          caLoop chain hashA bB.prevBlock chainA (hashB :: chainB) (length + 1)
        else
          if bA.prevBlock = zeroHash then
            (.atGenesis (hashA :: chainA) (hashB :: chainB), length + 1)
          else if bA.prevBlock = bB.prevBlock then
            (.ok bA.prevBlock (hashA :: chainA) (hashB :: chainB), length + 1)
          else
            caLoop chain bA.prevBlock bB.prevBlock (hashA :: chainA) (hashB :: chainB)
              (length + 1)
termination_by maxAncestorChainLength - length
decreasing_by all_goals (simp_wf; omega)

/-- `CommonAncestor`: run the walk from the two tips with empty chains
and a zero length counter. -/
def CommonAncestor (chain : Nat → Option Header) (hashA hashB : Nat) : CAResult × Nat :=
  caLoop chain hashA hashB [] [] 0

/-- `LinkedChain chain bottom seg`: the hashes of `seg` form a
previous-hash-linked segment sitting directly on top of `bottom` —
the first element's block has `bottom` as previous hash, and each later
element's block has the preceding element as previous hash. -/
def LinkedChain (chain : Nat → Option Header) : Nat → List Nat → Prop
  | _, [] => True
  | bottom, s :: rest =>
    (∃ b, chain s = some b ∧ b.prevBlock = bottom) ∧ LinkedChain chain s rest

/-- The accumulator's last element is the original tip (or the
accumulator is still empty and the current hash is the tip). -/
def TipAnchor (tip cur : Nat) (acc : List Nat) : Prop :=
  (acc = [] ∧ cur = tip) ∨ acc.getLast? = some tip

/-- A well-formed chain oracle: following a previous hash strictly
decreases the height. -/
def HeightDecreasing (chain : Nat → Option Header) : Prop :=
  ∀ h b, chain h = some b → ∀ pb, chain b.prevBlock = some pb → pb.height < b.height

/-- The height of a hash under the oracle (0 when unknown). -/
def heightOf (chain : Nat → Option Header) (x : Nat) : Nat :=
  match chain x with
  | some b => b.height
  | none => 0

end Rpcutils

namespace Rpcutils

/-- At or past the bound, the loop immediately fails with MaxChainLength. -/
theorem caLoop_guard (chain : Nat → Option Header) (a b : Nat) (cA cB : List Nat)
    (n : Nat) (hn : maxAncestorChainLength ≤ n) :
    caLoop chain a b cA cB n = (.maxChainLength, n) := by
  unfold caLoop
  rw [dif_pos hn]

/-- The walk's length counter at exit never exceeds the bound, and it
equals the bound exactly on a MaxChainLength failure. -/
theorem caLoop_steps (chain : Nat → Option Header) :
    ∀ (k n : Nat) (a b : Nat) (cA cB : List Nat),
      maxAncestorChainLength - n = k → n ≤ maxAncestorChainLength →
      (caLoop chain a b cA cB n).2 ≤ maxAncestorChainLength
      ∧ ((caLoop chain a b cA cB n).1 = .maxChainLength →
        (caLoop chain a b cA cB n).2 = maxAncestorChainLength) := by
  intro k
  induction k with
  | zero =>
    intro n a b cA cB hk hn
    have hge : maxAncestorChainLength ≤ n := by omega
    rw [caLoop_guard chain a b cA cB n hge]
    exact ⟨by omega, fun _ => by omega⟩
  | succ k ih =>
    intro n a b cA cB hk hn
    have hlt : n < maxAncestorChainLength := by omega
    unfold caLoop
    rw [dif_neg (by omega)]
    cases hA : chain a with
    | none => exact ⟨by simpa using hn, by simp⟩
    | some bA =>
      cases hB : chain b with
      | none => exact ⟨by simpa using hn, by simp⟩
      | some bB =>
        dsimp only
        by_cases h1 : bB.height < bA.height
        · rw [if_pos h1]
          exact ih (n + 1) _ _ _ _ (by omega) (by omega)
        · rw [if_neg h1]
          by_cases h2 : bA.height < bB.height
          · rw [if_pos h2]
            exact ih (n + 1) _ _ _ _ (by omega) (by omega)
          · rw [if_neg h2]
            by_cases h3 : bA.prevBlock = zeroHash
            · rw [if_pos h3]
              exact ⟨by simp; omega, by simp⟩
            · rw [if_neg h3]
              by_cases h4 : bA.prevBlock = bB.prevBlock
              · rw [if_pos h4]
                exact ⟨by simp; omega, by simp⟩
              · rw [if_neg h4]
                exact ih (n + 1) _ _ _ _ (by omega) (by omega)

/-- Prepending the current hash keeps the accumulator anchored at the
original tip. -/
theorem tipAnchor_cons (tip a : Nat) (acc : List Nat) (h : TipAnchor tip a acc) :
    (a :: acc).getLast? = some tip := by
  rcases h with ⟨rfl, rfl⟩ | hlast
  · rfl
  · cases acc with
    | nil => simp at hlast
    | cons x xs => rw [List.getLast?_cons_cons]; exact hlast

end Rpcutils

namespace Rpcutils

/-- Exit analysis of the walk: a success returns two non-empty
previous-hash-linked branches sitting on the returned ancestor and ending
at the input tips; an AtGenesis failure returns such branches whose A-side
bottom block has the zero previous hash. -/
theorem caLoop_exits (chain : Nat → Option Header) :
    ∀ (k n : Nat) (a b tipA tipB : Nat) (cA cB : List Nat),
      maxAncestorChainLength - n = k →
      LinkedChain chain a cA → LinkedChain chain b cB →
      TipAnchor tipA a cA → TipAnchor tipB b cB →
      (∀ anc cA' cB', (caLoop chain a b cA cB n).1 = .ok anc cA' cB' →
        LinkedChain chain anc cA' ∧ LinkedChain chain anc cB'
        ∧ cA' ≠ [] ∧ cB' ≠ []
        ∧ cA'.getLast? = some tipA ∧ cB'.getLast? = some tipB)
      ∧ (∀ cA' cB', (caLoop chain a b cA cB n).1 = .atGenesis cA' cB' →
        (∃ g bg, cA'.head? = some g ∧ chain g = some bg ∧ bg.prevBlock = zeroHash)
        ∧ LinkedChain chain zeroHash cA'
        ∧ cA' ≠ [] ∧ cB' ≠ []
        ∧ cA'.getLast? = some tipA ∧ cB'.getLast? = some tipB) := by
  intro k
  induction k with
  | zero =>
    intro n a b tipA tipB cA cB hk hLA hLB hTA hTB
    rw [caLoop_guard chain a b cA cB n (by omega)]
    exact ⟨fun anc cA' cB' h => by simp at h, fun cA' cB' h => by simp at h⟩
  | succ k ih =>
    intro n a b tipA tipB cA cB hk hLA hLB hTA hTB
    by_cases hn : maxAncestorChainLength ≤ n
    · rw [caLoop_guard chain a b cA cB n hn]
      exact ⟨fun anc cA' cB' h => by simp at h, fun cA' cB' h => by simp at h⟩
    · unfold caLoop
      rw [dif_neg hn]
      cases hA : chain a with
      | none => exact ⟨fun anc cA' cB' h => by simp at h, fun cA' cB' h => by simp at h⟩
      | some bA =>
        cases hB : chain b with
        | none => exact ⟨fun anc cA' cB' h => by simp at h, fun cA' cB' h => by simp at h⟩
        | some bB =>
          dsimp only
          by_cases h1 : bB.height < bA.height
          · rw [if_pos h1]
            exact ih (n + 1) _ _ tipA tipB _ _ (by omega)
              ⟨⟨bA, hA, rfl⟩, hLA⟩ hLB (Or.inr (tipAnchor_cons tipA a cA hTA)) hTB
          · rw [if_neg h1]
            by_cases h2 : bA.height < bB.height
            · rw [if_pos h2]
              exact ih (n + 1) _ _ tipA tipB _ _ (by omega)
                hLA ⟨⟨bB, hB, rfl⟩, hLB⟩ hTA (Or.inr (tipAnchor_cons tipB b cB hTB))
            · rw [if_neg h2]
              by_cases h3 : bA.prevBlock = zeroHash
              · rw [if_pos h3]
                refine ⟨fun anc cA' cB' h => by simp at h, fun cA' cB' h => ?_⟩
                simp only [CAResult.atGenesis.injEq] at h
                obtain ⟨hca, hcb⟩ := h
                subst hca
                subst hcb
                refine ⟨⟨a, bA, rfl, hA, h3⟩, ⟨⟨bA, hA, h3⟩, hLA⟩, by simp, by simp,
                  tipAnchor_cons tipA a cA hTA, tipAnchor_cons tipB b cB hTB⟩
              · rw [if_neg h3]
                by_cases h4 : bA.prevBlock = bB.prevBlock
                · rw [if_pos h4]
                  refine ⟨fun anc cA' cB' h => ?_, fun cA' cB' h => by simp at h⟩
                  simp only [CAResult.ok.injEq] at h
                  obtain ⟨hanc, hca, hcb⟩ := h
                  subst hanc
                  subst hca
                  subst hcb
                  exact ⟨⟨⟨bA, hA, rfl⟩, hLA⟩, ⟨⟨bB, hB, h4.symm⟩, hLB⟩, by simp, by simp,
                    tipAnchor_cons tipA a cA hTA, tipAnchor_cons tipB b cB hTB⟩
                · rw [if_neg h4]
                  exact ih (n + 1) _ _ tipA tipB _ _ (by omega)
                    ⟨⟨bA, hA, rfl⟩, hLA⟩ ⟨⟨bB, hB, rfl⟩, hLB⟩
                    (Or.inr (tipAnchor_cons tipA a cA hTA))
                    (Or.inr (tipAnchor_cons tipB b cB hTB))

end Rpcutils

namespace Rpcutils

/-- Over a height-decreasing oracle, every element of a linked segment
has a block strictly higher than the segment's bottom. -/
theorem linkedChain_mem_height (chain : Nat → Option Header)
    (hwf : HeightDecreasing chain) :
    ∀ (seg : List Nat) (bottom : Nat), LinkedChain chain bottom seg →
      ∀ x ∈ seg, ∃ bx, chain x = some bx ∧
        ∀ bb, chain bottom = some bb → bb.height < bx.height := by
  intro seg
  induction seg with
  | nil => intro bottom _ x hx; simp at hx
  | cons s rest ih =>
    intro bottom hlc x hx
    obtain ⟨⟨b, hs, hprev⟩, hrest⟩ := hlc
    rcases List.mem_cons.mp hx with rfl | hx'
    · exact ⟨b, hs, fun bb hbb => hwf x b hs bb (by rw [hprev]; exact hbb)⟩
    · obtain ⟨bx, hbx, hlt⟩ := ih s hrest x hx'
      exact ⟨bx, hbx, fun bb hbb =>
        lt_trans (hwf s b hs bb (by rw [hprev]; exact hbb)) (hlt b hs)⟩

/-- Over a height-decreasing oracle, the bottom hash never occurs in a
linked segment above it: the returned branches exclude the ancestor. -/
theorem linkedChain_not_mem (chain : Nat → Option Header)
    (hwf : HeightDecreasing chain) (anc : Nat) (seg : List Nat)
    (hlc : LinkedChain chain anc seg) : anc ∉ seg := by
  intro hmem
  obtain ⟨bx, hbx, hlt⟩ := linkedChain_mem_height chain hwf seg anc hlc anc hmem
  exact lt_irrefl _ (hlt bx hbx)

/-- Over a height-decreasing oracle, a linked segment is ordered
oldest-to-newest: heights strictly increase along it. -/
theorem linkedChain_heights_ascending (chain : Nat → Option Header)
    (hwf : HeightDecreasing chain) :
    ∀ (seg : List Nat) (bottom : Nat), LinkedChain chain bottom seg →
      List.Chain' (fun x y => heightOf chain x < heightOf chain y) seg := by
  intro seg
  induction seg with
  | nil => intro bottom _; simp
  | cons s rest ih =>
    intro bottom hlc
    obtain ⟨⟨b, hs, hprev⟩, hrest⟩ := hlc
    have hc' := ih s hrest
    cases rest with
    | nil => simp
    | cons t rest' =>
      obtain ⟨⟨bt, ht, hpt⟩, -⟩ := hrest
      refine List.chain'_cons.mpr ⟨?_, hc'⟩
      have := hwf t bt ht b (by rw [hpt]; exact hs)
      simp only [heightOf, hs, ht]
      exact this

end Rpcutils

/-- Claim C1: the common-ancestor walk steps the higher side back until
heights match, then both sides together; the bound is 8192 steps, checked
at the top of every iteration, and the walk fails with MaxChainLength
exactly when the counter reaches the bound; it fails with AtGenesis when
a zero previous hash is reached at matched heights; and on success it
returns the common ancestor together with both branches, each non-empty,
previous-hash linked on top of the ancestor, excluding the ancestor,
ordered oldest-to-newest (heights strictly ascending, over a
height-decreasing oracle), and ending at its input tip. -/
theorem claim_C1_commonAncestor (chain : Nat → Option Rpcutils.Header)
    (hashA hashB : Nat) (hwf : Rpcutils.HeightDecreasing chain) :
    Rpcutils.maxAncestorChainLength = 8192
  ∧ (∀ (a b : Nat) (cA cB : List Nat) (n : Nat), 8192 ≤ n →
      (Rpcutils.caLoop chain a b cA cB n).1 = .maxChainLength)
  ∧ (Rpcutils.CommonAncestor chain hashA hashB).2 ≤ 8192
  ∧ ((Rpcutils.CommonAncestor chain hashA hashB).1 = .maxChainLength →
      (Rpcutils.CommonAncestor chain hashA hashB).2 = 8192)
  ∧ (∀ anc cA cB, (Rpcutils.CommonAncestor chain hashA hashB).1 = .ok anc cA cB →
      Rpcutils.LinkedChain chain anc cA ∧ Rpcutils.LinkedChain chain anc cB
      ∧ cA ≠ [] ∧ cB ≠ []
      ∧ cA.getLast? = some hashA ∧ cB.getLast? = some hashB
      ∧ anc ∉ cA ∧ anc ∉ cB
      ∧ List.Chain' (fun x y => Rpcutils.heightOf chain x < Rpcutils.heightOf chain y) cA
      ∧ List.Chain' (fun x y => Rpcutils.heightOf chain x < Rpcutils.heightOf chain y) cB)
  ∧ (∀ cA cB, (Rpcutils.CommonAncestor chain hashA hashB).1 = .atGenesis cA cB →
      (∃ g bg, cA.head? = some g ∧ chain g = some bg ∧ bg.prevBlock = Rpcutils.zeroHash)
      ∧ cA ≠ [] ∧ cB ≠ []
      ∧ cA.getLast? = some hashA ∧ cB.getLast? = some hashB) := by
  have hexits := Rpcutils.caLoop_exits chain
    (Rpcutils.maxAncestorChainLength - 0) 0 hashA hashB hashA hashB [] [] rfl
    trivial trivial (Or.inl ⟨rfl, rfl⟩) (Or.inl ⟨rfl, rfl⟩)
  have hsteps := Rpcutils.caLoop_steps chain
    (Rpcutils.maxAncestorChainLength - 0) 0 hashA hashB [] [] rfl
    (Nat.zero_le _)
  refine ⟨rfl, ?_, hsteps.1, hsteps.2, ?_, ?_⟩
  · intro a b cA cB n hn
    rw [Rpcutils.caLoop_guard chain a b cA cB n hn]
  · intro anc cA cB hok
    obtain ⟨hLA, hLB, hne1, hne2, hl1, hl2⟩ := hexits.1 anc cA cB hok
    exact ⟨hLA, hLB, hne1, hne2, hl1, hl2,
      Rpcutils.linkedChain_not_mem chain hwf anc cA hLA,
      Rpcutils.linkedChain_not_mem chain hwf anc cB hLB,
      Rpcutils.linkedChain_heights_ascending chain hwf cA anc hLA,
      Rpcutils.linkedChain_heights_ascending chain hwf cB anc hLB⟩
  · intro cA cB hgen
    obtain ⟨hg, -, hne1, hne2, hl1, hl2⟩ := hexits.2 cA cB hgen
    exact ⟨hg, hne1, hne2, hl1, hl2⟩

/-- A small two-branch test chain: genesis 1, block 2, fork blocks 3 and 4
at height 2, tips 5 and 6 at height 3.  Blocks 3 and 4 share parent 2. -/
def testChain : Nat → Option Rpcutils.Header := fun h =>
  if h = 1 then some ⟨0, 0⟩
  else if h = 2 then some ⟨1, 1⟩
  else if h = 3 then some ⟨2, 2⟩
  else if h = 4 then some ⟨2, 2⟩
  else if h = 5 then some ⟨3, 3⟩
  else if h = 6 then some ⟨3, 4⟩
  else none

/-- Claim C1 witness: on the two-branch test chain the walk from tips 5
and 6 returns ancestor 2 with branches [3, 5] and [4, 6]. -/
theorem claim_C1_commonAncestor_witness :
    Rpcutils.HeightDecreasing testChain
  ∧ (∀ anc cA cB, (Rpcutils.CommonAncestor testChain 5 6).1 = .ok anc cA cB →
      Rpcutils.LinkedChain testChain anc cA ∧ Rpcutils.LinkedChain testChain anc cB
      ∧ cA ≠ [] ∧ cB ≠ []
      ∧ cA.getLast? = some 5 ∧ cB.getLast? = some 6
      ∧ anc ∉ cA ∧ anc ∉ cB
      ∧ List.Chain' (fun x y => Rpcutils.heightOf testChain x < Rpcutils.heightOf testChain y) cA
      ∧ List.Chain' (fun x y => Rpcutils.heightOf testChain x < Rpcutils.heightOf testChain y) cB)
  ∧ (Rpcutils.CommonAncestor testChain 5 6).1 = .ok 2 [3, 5] [4, 6] := by
  have hwf : Rpcutils.HeightDecreasing testChain := by
    intro h b hb pb hpb
    unfold testChain at hb
    split_ifs at hb <;> (try (injection hb with hb; subst hb)) <;>
      simp_all [testChain] <;> cases hpb <;> simp
  exact ⟨hwf, (claim_C1_commonAncestor testChain 5 6 hwf).2.2.2.2.1,
    by simp [Rpcutils.CommonAncestor, Rpcutils.caLoop, testChain,
      Rpcutils.maxAncestorChainLength, Rpcutils.zeroHash]⟩
